import Mathlib

/-!
Verification of the jsbuilder rendering engine (jsbuilder/__init__.py).

The embedding mirrors the Python source:
  - Value models Python values reachable by the renderer: AST nodes
    (a kind tag plus a field dictionary), lists, strings, ints, bools and
    None.  Numeric literals are modelled as integers (floats are not
    exactly representable and no claim touches them).
  - Scope models the _Scope chain as a list of frames, innermost first;
    _Scope.add mutates only the innermost frame, __contains__ walks the
    whole chain.
  - renderValue models _to_str; it is fuel-indexed because the Python
    recursion is bounded only by the interpreter stack.  It returns the
    rendered text, the node as left after rendering (the _DictWrapper
    writes rendered text back into the node's __dict__, so rendering
    mutates the tree) and the scope as left after rendering.
  - PARSERS transcribes the _PARSERS dispatch table: string templates
    become lists of literal and placeholder items (the %-placeholders are
    resolved left to right through _DictWrapper.__getitem__, modelled by
    getItemR), and the procedural parsers become ProcKind tags dispatched
    by procR.
  - Shape errors (missing attribute, iterating a non-list) correspond to
    Python AttributeError / TypeError; the spec declares malformed trees
    undefined behaviour, and the exact raise points of those errors are
    not load-bearing for any claim.  str() conversion of a non-string
    value in a raw placeholder would produce a Python repr (address
    dependent); pyStr maps such values to a fixed placeholder text, and
    no fixed template exercises that case.
-/

abbrev Frame := List String

abbrev Scope := List Frame

/-- Python set.add on the innermost frame's identifier set. -/
def addName (x : String) (fr : Frame) : Frame :=
  if fr.contains x then fr else x :: fr

/-- One insertion into the innermost frame's identifier set, matching a
single self._identifiers.add(x) performed by the loop of _Scope.add;
only the innermost frame is ever mutated. -/
def scopeAdd (x : String) (s : Scope) : Scope :=
  match s with
  | [] => []
  | fr :: rest => addName x fr :: rest

/-- A one-character Python string, as produced by iterating a str. -/
def charStr (c : Char) : String := ⟨[c]⟩

/-- Models _Scope.add applied to a string, as _parse_assign does with
scope.add(t): the body of add iterates its argument, and iterating a
Python string yields its characters, so each character of the target is
recorded as a one-character identifier in the innermost frame. -/
def scopeAddChars (t : String) (s : Scope) : Scope :=
  t.data.foldl (fun sc c => scopeAdd (charStr c) sc) s

/-- Models _Scope.__contains__: the identifier is searched in the current
frame and then recursively in every ancestor frame. -/
def containsScope (x : String) (s : Scope) : Bool :=
  s.any (fun fr => fr.contains x)

inductive Value : Type where
  | vNone : Value
  | vBool : Bool → Value
  | vInt : Int → Value
  | vStr : String → Value
  | vList : List Value → Value
  | vNode : String → List (String × Value) → Value

abbrev Fields := List (String × Value)

inductive Err : Type where
  | unsupported : String → Err
  | missingField : String → Err
  | badShape : String → Err
  | noFuel : Err

/-- One piece of a %-style template string: literal text or a named
placeholder %(name)s. -/
inductive TItem : Type where
  | lit : String → TItem
  | hole : String → TItem

inductive ProcKind : Type where
  | assign | boolOp | compare | call | dictLit
  | functionDef | lambdaFn | listLit | argumentsFn

inductive ParseRule : Type where
  | template : List TItem → ParseRule
  | proc : ProcKind → ParseRule

/-- Transcription of the _PARSERS dispatch table, in source order.
Template strings are split into literal runs and %(name)s placeholders;
the Mod entry's source text is the escaped "%%", which the % operator
emits as a single percent sign. -/
def PARSERS : List (String × ParseRule) := [
  ("FunctionDef", .proc .functionDef),
  ("Return", .template [.lit "return ", .hole "value"]),
  ("Delete", .template [.lit "delete ", .hole "targets"]),
  ("Assign", .proc .assign),
  ("AugAssign", .template [.hole "target", .lit " ", .hole "op", .lit "= ", .hole "value"]),
  ("For", .template [.hole "iter", .lit ".forEach((", .hole "target",
                     .lit ", _i) => \x7b\n", .hole "body", .lit "\n\x7d)"]),
  ("While", .template [.lit "while (", .hole "test", .lit ") \x7b\n", .hole "body", .lit "\n\x7d"]),
  ("If", .template [.lit "if (", .hole "test", .lit ") \x7b\n", .hole "body",
                    .lit "\n\x7d else \x7b\n", .hole "orelse", .lit "\n\x7d"]),
  ("Raise", .template [.lit "throw new Error(", .hole "exc", .lit ")"]),
  ("Expr", .template [.hole "value"]),
  ("Pass", .template []),
  ("BoolOp", .proc .boolOp),
  ("BinOp", .template [.lit "(", .hole "left", .lit " ", .hole "op", .lit " ", .hole "right", .lit ")"]),
  ("UnaryOp", .template [.lit "(", .hole "op", .hole "operand", .lit ")"]),
  ("Lambda", .proc .lambdaFn),
  ("IfExp", .template [.lit "(", .hole "test", .lit ") ? (", .hole "body",
                       .lit ") : (", .hole "orelse", .lit ")"]),
  ("Dict", .proc .dictLit),
  ("Compare", .proc .compare),
  ("Call", .proc .call),
  ("Constant", .template [.hole "value"]),
  ("Attribute", .template [.hole "value", .lit ".", .hole "raw_attr"]),
  ("Subscript", .template [.hole "value", .lit "[", .hole "slice", .lit "]"]),
  ("Name", .template [.hole "raw_id"]),
  ("List", .proc .listLit),
  ("Index", .template [.hole "value"]),
  ("And", .template [.lit "&&"]),
  ("Or", .template [.lit "||"]),
  ("Add", .template [.lit "+"]),
  ("Sub", .template [.lit "-"]),
  ("Mult", .template [.lit "*"]),
  ("Div", .template [.lit "/"]),
  ("Mod", .template [.lit "%"]),
  ("LShift", .template [.lit "<<"]),
  ("RShift", .template [.lit ">>"]),
  ("BitOr", .template [.lit "|"]),
  ("BitXor", .template [.lit "^"]),
  ("BitAnd", .template [.lit "&"]),
  ("Invert", .template [.lit "~"]),
  ("Not", .template [.lit "!"]),
  ("UAdd", .template [.lit "+"]),
  ("USub", .template [.lit "-"]),
  ("Eq", .template [.lit "==="]),
  ("NotEq", .template [.lit "!=="]),
  ("Lt", .template [.lit "<"]),
  ("LtE", .template [.lit "<="]),
  ("Gt", .template [.lit ">"]),
  ("GtE", .template [.lit ">="]),
  ("Break", .template [.lit "break"]),
  ("Continue", .template [.lit "continue"]),
  ("arguments", .proc .argumentsFn),
  ("Num", .template [.hole "n"]),
  ("Str", .template [.hole "s"]),
  ("Bytes", .template [.lit "\"", .hole "s", .lit "\""]),
  ("NameConstant", .template [.hole "value"])
]

/-- Python str() conversion applied by the % operator to the object the
wrapper returns.  Rendered fields are strings; raw placeholders in the
fixed table (raw_attr, raw_id) read string fields.  The remaining cases
would be Python reprs and are unreachable through the fixed templates on
well-formed trees. -/
def pyStr : Value → String
  | .vStr s => s
  | .vInt n => toString n
  | .vBool b => if b then "True" else "False"
  | .vNone => "None"
  | .vList _ => "<list>"
  | .vNode k _ => "<" ++ k ++ ">"

/-- Python dict assignment d[k] = v for an existing key: the entry is
replaced in place. -/
def setField (fs : Fields) (k : String) (v : Value) : Fields :=
  fs.map (fun p => if p.1 = k then (p.1, v) else p)

/-- The per-target decision inside _parse_assign: an already-declared
target or a compound reference (containing a dot or a bracket) gets a
plain assignment and leaves the scope alone; otherwise a var declaration
is emitted and scope.add(t) records the characters of the target string
(not the whole name) in the current frame. -/
def assignStep (t v : String) (s : Scope) : String × Scope :=
  if containsScope t s || t.data.contains '.' || t.data.contains '[' then
    (t ++ " = " ++ v, s)
  else
    ("var " ++ t ++ " = " ++ v, scopeAddChars t s)

/-- Models _to_str_iter consumed strictly: renders each element in turn,
threading the scope, and returns the texts together with the elements as
left after rendering. -/
def seqR (r : Value → Scope → Except Err (String × Value × Scope)) :
    List Value → Scope → Except Err (List String × List Value × Scope)
  | [], s => .ok ([], [], s)
  | x :: xs, s =>
    match r x s with
    | .error e => .error e
    | .ok (t, x2, s2) =>
      match seqR r xs s2 with
      | .error e => .error e
      | .ok (ts, xs2, s3) => .ok (t :: ts, x2 :: xs2, s3)

/-- Base field name of a placeholder: a raw_ prefix is stripped
(k.startswith applied to the character data). -/
def baseKey (k : String) : String :=
  if List.isPrefixOf "raw_".data k.data then k.drop 4 else k

/-- True when the placeholder asks for the unrendered field value. -/
def isRawKey (k : String) : Bool := List.isPrefixOf "raw_".data k.data

/-- Models _DictWrapper.__getitem__.  State is the node's field dict,
the set of already-parsed base keys and the scope.  On a first read the
field is rendered (or kept raw) and written back into the field dict; on
any later read of the same base key the stored value is returned
unchanged. -/
def getItemR (r : Value → Scope → Except Err (String × Value × Scope))
    (fs : Fields) (pk : List String) (s : Scope) (k : String) :
    Except Err (Value × Fields × List String × Scope) :=
  let b := baseKey k
  if pk.contains b then
    match List.lookup b fs with
    | some v => .ok (v, fs, pk, s)
    | none => .error (.missingField b)
  else
    match List.lookup b fs with
    | none => .error (.missingField b)
    | some v0 =>
      if isRawKey k then
        .ok (v0, fs, b :: pk, s)
      else
        match r v0 s with
        | .error e => .error e
        | .ok (t, _, s2) => .ok (.vStr t, setField fs b (.vStr t), b :: pk, s2)

/-- Models the % operator resolving a template against a _DictWrapper:
items are processed left to right, placeholders through getItemR, and
the returned objects pass through str(). -/
def templateR (r : Value → Scope → Except Err (String × Value × Scope)) :
    List TItem → Fields → List String → Scope → Except Err (String × Fields × Scope)
  | [], fs, _, s => .ok ("", fs, s)
  | .lit l :: rest, fs, pk, s =>
    match templateR r rest fs pk s with
    | .error e => .error e
    | .ok (t, fs2, s2) => .ok (l ++ t, fs2, s2)
  | .hole k :: rest, fs, pk, s =>
    match getItemR r fs pk s k with
    | .error e => .error e
    | .ok (v, fs2, pk2, s2) =>
      match templateR r rest fs2 pk2 s2 with
      | .error e => .error e
      | .ok (t, fs3, s3) => .ok (pyStr v ++ t, fs3, s3)

/-- The target loop of _parse_assign: the target generator is consumed
lazily, so each target is rendered and then immediately judged against
the scope as it stands at that moment. -/
def assignLoopR (r : Value → Scope → Except Err (String × Value × Scope))
    (v : String) : List Value → Scope → Except Err (List String × List Value × Scope)
  | [], s => .ok ([], [], s)
  | t :: ts, s =>
    match r t s with
    | .error e => .error e
    | .ok (tx, t2, s2) =>
      match assignStep tx v s2 with
      | (stmt, s3) =>
        match assignLoopR r v ts s3 with
        | .error e => .error e
        | .ok (stmts, ts2, s4) => .ok (stmt :: stmts, t2 :: ts2, s4)

/-- Models zip over the two _to_str_iter generators in _parse_compare
and _parse_dict: elements are pulled alternately, first iterator first,
and when the second iterator is exhausted the element already pulled
from the first has still been rendered. -/
def pairsR (r : Value → Scope → Except Err (String × Value × Scope)) :
    List Value → List Value → Scope →
    Except Err (List (String × String) × List Value × List Value × Scope)
  | [], cs, s => .ok ([], [], cs, s)
  | o :: os, [], s =>
    match r o s with
    | .error e => .error e
    | .ok (_, o2, s2) => .ok ([], o2 :: os, [], s2)
  | o :: os, c :: cs, s =>
    match r o s with
    | .error e => .error e
    | .ok (oTxt, o2, s2) =>
      match r c s2 with
      | .error e => .error e
      | .ok (cTxt, c2, s3) =>
        match pairsR r os cs s3 with
        | .error e => .error e
        | .ok (ps, os2, cs2, s4) => .ok ((oTxt, cTxt) :: ps, o2 :: os2, c2 :: cs2, s4)

/-- Extracts the literal name of one formal argument node (x.arg). -/
def argName : Value → Except Err String
  | .vNode _ fs =>
    match List.lookup "arg" fs with
    | some (.vStr nm) => .ok nm
    | some _ => .error (.badShape "arg")
    | none => .error (.missingField "arg")
  | _ => .error (.badShape "arg")

def argNames : List Value → Except Err (List String)
  | [] => .ok []
  | x :: xs =>
    match argName x with
    | .error e => .error e
    | .ok nm =>
      match argNames xs with
      | .error e => .error e
      | .ok nms => .ok (nm :: nms)

/-- Extracts the parameter names of an arguments node
(x.arg for x in argumentsNode.args). -/
def getParams : Value → Except Err (List String)
  | .vNode _ afs =>
    match List.lookup "args" afs with
    | some (.vList xs) => argNames xs
    | some _ => .error (.badShape "args.args")
    | none => .error (.missingField "args.args")
  | _ => .error (.badShape "args")

/-- The child frame created by scope.enter_new() followed by
new_scope.add(x.arg for x in node.args.args). -/
def paramsFrame (ps : List String) : Frame :=
  ps.foldl (fun fr p => addName p fr) []

/-- Models _parse_assign: the right-hand side is rendered once, then the
lazily-rendered targets are judged one by one, and the per-target
statements are joined with a bare semicolon. -/
def parse_assign (r : Value → Scope → Except Err (String × Value × Scope))
    (k : String) (fs : Fields) (s : Scope) : Except Err (String × Value × Scope) :=
  match List.lookup "value" fs with
  | none => .error (.missingField "value")
  | some valV =>
    match r valV s with
    | .error e => .error e
    | .ok (vTxt, valV2, s2) =>
      match List.lookup "targets" fs with
      | none => .error (.missingField "targets")
      | some (.vList ts) =>
        match assignLoopR r vTxt ts s2 with
        | .error e => .error e
        | .ok (stmts, ts2, s3) =>
          .ok (String.intercalate ";" stmts,
               .vNode k (setField (setField fs "value" valV2) "targets" (.vList ts2)), s3)
      | some _ => .error (.badShape "targets")

/-- Models _parse_bool_op: op.join over the rendered operand texts. -/
def parse_bool_op (r : Value → Scope → Except Err (String × Value × Scope))
    (k : String) (fs : Fields) (s : Scope) : Except Err (String × Value × Scope) :=
  match List.lookup "op" fs with
  | none => .error (.missingField "op")
  | some opV =>
    match r opV s with
    | .error e => .error e
    | .ok (opTxt, opV2, s2) =>
      match List.lookup "values" fs with
      | none => .error (.missingField "values")
      | some (.vList vs) =>
        match seqR r vs s2 with
        | .error e => .error e
        | .ok (ts, vs2, s3) =>
          .ok (String.intercalate opTxt ts,
               .vNode k (setField (setField fs "op" opV2) "values" (.vList vs2)), s3)
      | some _ => .error (.badShape "values")

/-- Models _parse_compare: left operand first, then the zipped
operator/comparator pairs, assembled as left SP op SP comp SP op SP comp. -/
def parse_compare (r : Value → Scope → Except Err (String × Value × Scope))
    (k : String) (fs : Fields) (s : Scope) : Except Err (String × Value × Scope) :=
  match List.lookup "ops" fs with
  | none => .error (.missingField "ops")
  | some (.vList os) =>
    match List.lookup "comparators" fs with
    | none => .error (.missingField "comparators")
    | some (.vList cs) =>
      match List.lookup "left" fs with
      | none => .error (.missingField "left")
      | some leftV =>
        match r leftV s with
        | .error e => .error e
        | .ok (lTxt, leftV2, s2) =>
          match pairsR r os cs s2 with
          | .error e => .error e
          | .ok (ps, os2, cs2, s3) =>
            .ok (lTxt ++ " " ++ String.intercalate " " (ps.map (fun p => p.1 ++ " " ++ p.2)),
                 .vNode k (setField (setField (setField fs "left" leftV2)
                   "ops" (.vList os2)) "comparators" (.vList cs2)), s3)
    | some _ => .error (.badShape "comparators")
  | some _ => .error (.badShape "ops")

/-- Models _parse_call: callee text, then comma-joined argument texts. -/
def parse_call (r : Value → Scope → Except Err (String × Value × Scope))
    (k : String) (fs : Fields) (s : Scope) : Except Err (String × Value × Scope) :=
  match List.lookup "func" fs with
  | none => .error (.missingField "func")
  | some fV =>
    match r fV s with
    | .error e => .error e
    | .ok (fTxt, fV2, s2) =>
      match List.lookup "args" fs with
      | none => .error (.missingField "args")
      | some (.vList as) =>
        match seqR r as s2 with
        | .error e => .error e
        | .ok (ts, as2, s3) =>
          .ok (fTxt ++ "(" ++ String.intercalate ", " ts ++ ")",
               .vNode k (setField (setField fs "func" fV2) "args" (.vList as2)), s3)
      | some _ => .error (.badShape "args")

/-- Models _parse_dict: zipped key/value pairs rendered alternately and
joined inside braces. -/
def parse_dict (r : Value → Scope → Except Err (String × Value × Scope))
    (k : String) (fs : Fields) (s : Scope) : Except Err (String × Value × Scope) :=
  match List.lookup "keys" fs with
  | none => .error (.missingField "keys")
  | some (.vList ks) =>
    match List.lookup "values" fs with
    | none => .error (.missingField "values")
    | some (.vList vs) =>
      match pairsR r ks vs s with
      | .error e => .error e
      | .ok (ps, ks2, vs2, s2) =>
        .ok ("\x7b" ++ String.intercalate ", " (ps.map (fun p => p.1 ++ ": " ++ p.2)) ++ "\x7d",
             .vNode k (setField (setField fs "keys" (.vList ks2)) "values" (.vList vs2)), s2)
    | some _ => .error (.badShape "values")
  | some _ => .error (.badShape "keys")

/-- Models _parse_function_def: a child frame pre-charged with the
parameter names is pushed, the argument list and then the body are
rendered inside it, the frame is dropped on return, and the result text
is the named function declaration. -/
def parse_function_def (r : Value → Scope → Except Err (String × Value × Scope))
    (k : String) (fs : Fields) (s : Scope) : Except Err (String × Value × Scope) :=
  match List.lookup "args" fs with
  | none => .error (.missingField "args")
  | some argsV =>
    match getParams argsV with
    | .error e => .error e
    | .ok ps =>
      match List.lookup "name" fs with
      | none => .error (.missingField "name")
      | some nameV =>
        match r argsV (paramsFrame ps :: s) with
        | .error e => .error e
        | .ok (argsTxt, argsV2, sA) =>
          match List.lookup "body" fs with
          | none => .error (.missingField "body")
          | some bodyV =>
            match r bodyV sA with
            | .error e => .error e
            | .ok (bodyTxt, bodyV2, sB) =>
              .ok ("function " ++ pyStr nameV ++ "(" ++ argsTxt ++ ") \x7b\n" ++ bodyTxt ++ "\n\x7d",
                   .vNode k (setField (setField fs "args" argsV2) "body" bodyV2), sB.tail)

/-- Models _parse_lambda: like a function definition but anonymous,
rendered as a parenthesized arrow function over a single expression. -/
def parse_lambda (r : Value → Scope → Except Err (String × Value × Scope))
    (k : String) (fs : Fields) (s : Scope) : Except Err (String × Value × Scope) :=
  match List.lookup "args" fs with
  | none => .error (.missingField "args")
  | some argsV =>
    match getParams argsV with
    | .error e => .error e
    | .ok ps =>
      match r argsV (paramsFrame ps :: s) with
      | .error e => .error e
      | .ok (argsTxt, argsV2, sA) =>
        match List.lookup "body" fs with
        | none => .error (.missingField "body")
        | some bodyV =>
          match r bodyV sA with
          | .error e => .error e
          | .ok (bodyTxt, bodyV2, sB) =>
            .ok ("((" ++ argsTxt ++ ") => (" ++ bodyTxt ++ "))",
                 .vNode k (setField (setField fs "args" argsV2) "body" bodyV2), sB.tail)

/-- Models the List-literal parser: bracketed comma-joined elements. -/
def parse_list (r : Value → Scope → Except Err (String × Value × Scope))
    (k : String) (fs : Fields) (s : Scope) : Except Err (String × Value × Scope) :=
  match List.lookup "elts" fs with
  | none => .error (.missingField "elts")
  | some (.vList es) =>
    match seqR r es s with
    | .error e => .error e
    | .ok (ts, es2, s2) =>
      .ok ("[" ++ String.intercalate ", " ts ++ "]",
           .vNode k (setField fs "elts" (.vList es2)), s2)
  | some _ => .error (.badShape "elts")

/-- Models _parse_arguments: the literal argument names joined by a
comma and a space; nothing is rendered and the scope is untouched. -/
def parse_arguments (k : String) (fs : Fields) (s : Scope) :
    Except Err (String × Value × Scope) :=
  match getParams (.vNode k fs) with
  | .error e => .error e
  | .ok nms => .ok (String.intercalate ", " nms, .vNode k fs, s)

/-- Dispatch of the procedural entries of _PARSERS. -/
def procR (r : Value → Scope → Except Err (String × Value × Scope))
    (p : ProcKind) (k : String) (fs : Fields) (s : Scope) :
    Except Err (String × Value × Scope) :=
  match p with
  | .assign => parse_assign r k fs s
  | .boolOp => parse_bool_op r k fs s
  | .compare => parse_compare r k fs s
  | .call => parse_call r k fs s
  | .dictLit => parse_dict r k fs s
  | .functionDef => parse_function_def r k fs s
  | .lambdaFn => parse_lambda r k fs s
  | .listLit => parse_list r k fs s
  | .argumentsFn => parse_arguments k fs s

/-- Models _to_str.  Lists join their statement renderings with a
semicolon and a newline; None, strings, ints and bools render directly;
nodes dispatch through PARSERS, failing with Err.unsupported when the
kind has no entry.  The fuel argument only bounds recursion depth. -/
def renderValue : Nat → Value → Scope → Except Err (String × Value × Scope)
  | 0, _, _ => .error .noFuel
  | f + 1, v, s =>
    match v with
    | .vList xs =>
      match seqR (renderValue f) xs s with
      | .error e => .error e
      | .ok (ts, xs2, s2) => .ok (String.intercalate ";\n" ts, .vList xs2, s2)
    | .vNone => .ok ("null", .vNone, s)
    | .vStr str => .ok ("\"" ++ str ++ "\"", .vStr str, s)
    | .vInt n => .ok (toString n, .vInt n, s)
    | .vBool b => .ok (if b then "true" else "false", .vBool b, s)
    | .vNode kind fs =>
      match List.lookup kind PARSERS with
      | Option.none => .error (.unsupported kind)
      | some (.template items) =>
        match templateR (renderValue f) items fs [] s with
        | .error e => .error e
        | .ok (t, fs2, s2) => .ok (t, .vNode kind fs2, s2)
      | some (.proc p) => procR (renderValue f) p kind fs s

/-- Framewise scope growth: same chain length, each frame's declared
set only gains names.  Rendering can only grow the scope this way. -/
inductive ScopeLE : Scope → Scope → Prop where
  | nil : ScopeLE [] []
  | cons {a b : Frame} {s t : Scope}
      (h : ∀ x, a.contains x = true → b.contains x = true)
      (hs : ScopeLE s t) : ScopeLE (a :: s) (b :: t)

/-- Renderers that can only grow the scope they are handed. -/
def RMono (r : Value → Scope → Except Err (String × Value × Scope)) : Prop :=
  ∀ v s t v2 s2, r v s = .ok (t, v2, s2) → ScopeLE s s2

def RNoU (r : Value → Scope → Except Err (String × Value × Scope)) : Prop :=
  ∀ v s k, r v s = .error (.unsupported k) → List.lookup k PARSERS = Option.none

/-- Shorthand constructors for concrete test trees. -/
def nName (x : String) : Value := .vNode "Name" [("id", .vStr x)]

def nAssign (x : String) (n : Int) : Value :=
  .vNode "Assign" [("targets", .vList [nName x]), ("value", .vInt n)]

/-!
Definitional unfolding lemmas for renderValue, one per shape of input,
used to step proofs through the dispatch of _to_str.
-/

theorem renderValue_zero (v : Value) (s : Scope) :
    renderValue 0 v s = .error .noFuel := rfl

theorem renderValue_list (f : Nat) (xs : List Value) (s : Scope) :
    renderValue (f+1) (.vList xs) s =
      match seqR (renderValue f) xs s with
      | .error e => .error e
      | .ok (ts, xs2, s2) => .ok (String.intercalate ";\n" ts, .vList xs2, s2) := rfl

theorem renderValue_none (f : Nat) (s : Scope) :
    renderValue (f+1) .vNone s = .ok ("null", .vNone, s) := rfl

theorem renderValue_str (f : Nat) (str : String) (s : Scope) :
    renderValue (f+1) (.vStr str) s = .ok ("\"" ++ str ++ "\"", .vStr str, s) := rfl

theorem renderValue_int (f : Nat) (n : Int) (s : Scope) :
    renderValue (f+1) (.vInt n) s = .ok (toString n, .vInt n, s) := rfl

theorem renderValue_bool (f : Nat) (b : Bool) (s : Scope) :
    renderValue (f+1) (.vBool b) s =
      .ok (if b then "true" else "false", .vBool b, s) := rfl

theorem renderValue_node (f : Nat) (kind : String) (fs : Fields) (s : Scope) :
    renderValue (f+1) (.vNode kind fs) s =
      match List.lookup kind PARSERS with
      | Option.none => .error (.unsupported kind)
      | some (.template items) =>
        match templateR (renderValue f) items fs [] s with
        | .error e => .error e
        | .ok (t, fs2, s2) => .ok (t, .vNode kind fs2, s2)
      | some (.proc p) => procR (renderValue f) p kind fs s := rfl

/-!
Scope-growth infrastructure.  Within one render pass the only scope
mutations are set insertions into the current frame (scope.add in
_parse_assign) and balanced push/pop of child frames (enter_new in the
function, lambda parsers); hence rendering can only grow the frames of
the scope it was handed.  ScopeLE captures framewise growth.
-/

theorem scopeLE_refl : ∀ s : Scope, ScopeLE s s
  | [] => .nil
  | _ :: rest => .cons (fun _ hx => hx) (scopeLE_refl rest)

theorem scopeLE_trans {s t u : Scope} (h1 : ScopeLE s t) (h2 : ScopeLE t u) :
    ScopeLE s u := by
  induction h1 generalizing u with
  | nil => exact h2
  | cons hab _ ih =>
    cases h2 with
    | cons hbc htu => exact .cons (fun x hx => hbc x (hab x hx)) (ih htu)

theorem containsScope_cons (x : String) (fr : Frame) (s : Scope) :
    containsScope x (fr :: s) = (fr.contains x || containsScope x s) := rfl

theorem containsScope_mono {s t : Scope} (h : ScopeLE s t) (x : String)
    (hx : containsScope x s = true) : containsScope x t = true := by
  induction h with
  | nil => exact hx
  | cons hab _ ih =>
    rw [containsScope_cons] at hx ⊢
    rcases Bool.or_eq_true_iff.mp hx with h1 | h2
    · exact Bool.or_eq_true_iff.mpr (Or.inl (hab x h1))
    · exact Bool.or_eq_true_iff.mpr (Or.inr (ih h2))

theorem contains_addName_self (x : String) (fr : Frame) :
    (addName x fr).contains x = true := by
  unfold addName
  split
  · assumption
  · simp

theorem contains_addName_mono {y : String} {fr : Frame} (x : String)
    (h : fr.contains y = true) : (addName x fr).contains y = true := by
  unfold addName
  split
  · exact h
  · simp at h ⊢
    exact Or.inr h

theorem scopeLE_scopeAdd (x : String) (s : Scope) : ScopeLE s (scopeAdd x s) := by
  cases s with
  | nil => exact .nil
  | cons fr rest =>
    exact .cons (fun y hy => contains_addName_mono x hy) (scopeLE_refl rest)

theorem containsScope_scopeAdd_self (x : String) {s : Scope} (h : s ≠ []) :
    containsScope x (scopeAdd x s) = true := by
  cases s with
  | nil => exact absurd rfl h
  | cons fr rest =>
    rw [scopeAdd, containsScope_cons, contains_addName_self, Bool.true_or]

theorem scopeLE_scopeAddChars (t : String) (s : Scope) :
    ScopeLE s (scopeAddChars t s) := by
  have key : ∀ (cs : List Char) (sc : Scope),
      ScopeLE sc (cs.foldl (fun sc c => scopeAdd (charStr c) sc) sc) := by
    intro cs
    induction cs with
    | nil => intro sc; exact scopeLE_refl sc
    | cons c cs ih =>
      intro sc
      rw [List.foldl]
      exact scopeLE_trans (scopeLE_scopeAdd (charStr c) sc) (ih _)
  exact key t.data s

/-- On a one-character string, the character-wise add coincides with a
single whole-name add. -/
theorem scopeAddChars_single (c : Char) (s : Scope) :
    scopeAddChars (charStr c) s = scopeAdd (charStr c) s := rfl

theorem assignStep_scopeLE (t v : String) (s : Scope) :
    ScopeLE s (assignStep t v s).2 := by
  unfold assignStep
  split
  · exact scopeLE_refl s
  · exact scopeLE_scopeAddChars t s

theorem seqR_mono {r} (hr : RMono r) :
    ∀ xs s ts xs2 s2, seqR r xs s = .ok (ts, xs2, s2) → ScopeLE s s2 := by
  intro xs
  induction xs with
  | nil =>
    intro s ts xs2 s2 h
    rw [seqR] at h
    cases h
    exact scopeLE_refl s
  | cons x xs ih =>
    intro s ts xs2 s2 h
    rw [seqR] at h
    split at h
    · cases h
    next t x2 s' h1 =>
      split at h
      · cases h
      next ts' xs2' s'' h2 =>
        cases h
        exact scopeLE_trans (hr _ _ _ _ _ h1) (ih _ _ _ _ h2)

theorem getItemR_mono {r} (hr : RMono r) :
    ∀ fs pk s k v fs2 pk2 s2,
      getItemR r fs pk s k = .ok (v, fs2, pk2, s2) → ScopeLE s s2 := by
  intro fs pk s k v fs2 pk2 s2 h
  rw [getItemR] at h
  split at h
  · split at h
    · cases h
      exact scopeLE_refl s
    · cases h
  · split at h
    · cases h
    next v0 _ =>
      split at h
      · cases h
        exact scopeLE_refl s
      · split at h
        · cases h
        next t x2 s' h1 =>
          cases h
          exact hr _ _ _ _ _ h1

theorem templateR_mono {r} (hr : RMono r) :
    ∀ items fs pk s t fs2 s2,
      templateR r items fs pk s = .ok (t, fs2, s2) → ScopeLE s s2 := by
  intro items
  induction items with
  | nil =>
    intro fs pk s t fs2 s2 h
    rw [templateR] at h
    cases h
    exact scopeLE_refl s
  | cons item rest ih =>
    intro fs pk s t fs2 s2 h
    cases item with
    | lit l =>
      rw [templateR] at h
      split at h
      · cases h
      next t' fs' s' h1 =>
        cases h
        exact ih _ _ _ _ _ _ h1
    | hole k =>
      rw [templateR] at h
      split at h
      · cases h
      next v fs' pk' s' h1 =>
        split at h
        · cases h
        next t' fs'' s'' h2 =>
          cases h
          exact scopeLE_trans (getItemR_mono hr _ _ _ _ _ _ _ _ h1) (ih _ _ _ _ _ _ h2)

theorem assignLoopR_mono {r} (hr : RMono r) (v : String) :
    ∀ ts s stmts ts2 s2,
      assignLoopR r v ts s = .ok (stmts, ts2, s2) → ScopeLE s s2 := by
  intro ts
  induction ts with
  | nil =>
    intro s stmts ts2 s2 h
    rw [assignLoopR] at h
    cases h
    exact scopeLE_refl s
  | cons t ts ih =>
    intro s stmts ts2 s2 h
    rw [assignLoopR] at h
    split at h
    · cases h
    next tx t2 s' h1 =>
      split at h
      next stmt s3 h2 =>
        split at h
        · cases h
        next stmts' ts2' s4 h3 =>
          cases h
          have hstep : ScopeLE s' s3 := by
            have := assignStep_scopeLE tx v s'
            rw [h2] at this
            exact this
          exact scopeLE_trans (hr _ _ _ _ _ h1)
            (scopeLE_trans hstep (ih _ _ _ _ h3))

theorem pairsR_mono {r} (hr : RMono r) :
    ∀ os cs s ps os2 cs2 s2,
      pairsR r os cs s = .ok (ps, os2, cs2, s2) → ScopeLE s s2 := by
  intro os
  induction os with
  | nil =>
    intro cs s ps os2 cs2 s2 h
    rw [pairsR] at h
    cases h
    exact scopeLE_refl s
  | cons o os ih =>
    intro cs s ps os2 cs2 s2 h
    cases cs with
    | nil =>
      rw [pairsR] at h
      split at h
      · cases h
      next o2 s' h1 =>
        cases h
        exact hr _ _ _ _ _ h1
    | cons c cs =>
      rw [pairsR] at h
      split at h
      · cases h
      next oTxt o2 s' h1 =>
        split at h
        · cases h
        next cTxt c2 s'' h2 =>
          split at h
          · cases h
          next ps' os2' cs2' s3 h3 =>
            cases h
            exact scopeLE_trans (hr _ _ _ _ _ h1)
              (scopeLE_trans (hr _ _ _ _ _ h2) (ih _ _ _ _ _ _ h3))

theorem scopeLE_cons_tail {fr : Frame} {s t : Scope} (h : ScopeLE (fr :: s) t) :
    ScopeLE s t.tail := by
  cases h with
  | cons _ hs => exact hs

theorem parse_assign_mono {r} (hr : RMono r) :
    ∀ k fs s t v2 s2, parse_assign r k fs s = .ok (t, v2, s2) → ScopeLE s s2 := by
  intro k fs s t v2 s2 h
  rw [parse_assign] at h
  split at h
  · cases h
  next valV _ =>
    split at h
    · cases h
    next vTxt valV2 s' h1 =>
      split at h
      · cases h
      next ts _ =>
        split at h
        · cases h
        next stmts ts2 s3 h2 =>
          cases h
          exact scopeLE_trans (hr _ _ _ _ _ h1) (assignLoopR_mono hr _ _ _ _ _ _ h2)
      · cases h

theorem parse_bool_op_mono {r} (hr : RMono r) :
    ∀ k fs s t v2 s2, parse_bool_op r k fs s = .ok (t, v2, s2) → ScopeLE s s2 := by
  intro k fs s t v2 s2 h
  rw [parse_bool_op] at h
  split at h
  · cases h
  next opV _ =>
    split at h
    · cases h
    next opTxt opV2 s' h1 =>
      split at h
      · cases h
      next vs _ =>
        split at h
        · cases h
        next ts vs2 s3 h2 =>
          cases h
          exact scopeLE_trans (hr _ _ _ _ _ h1) (seqR_mono hr _ _ _ _ _ h2)
      · cases h

theorem parse_compare_mono {r} (hr : RMono r) :
    ∀ k fs s t v2 s2, parse_compare r k fs s = .ok (t, v2, s2) → ScopeLE s s2 := by
  intro k fs s t v2 s2 h
  rw [parse_compare] at h
  split at h
  · cases h
  next os _ =>
    split at h
    · cases h
    next cs _ =>
      split at h
      · cases h
      next leftV _ =>
        split at h
        · cases h
        next lTxt leftV2 s' h1 =>
          split at h
          · cases h
          next ps os2 cs2 s3 h2 =>
            cases h
            exact scopeLE_trans (hr _ _ _ _ _ h1) (pairsR_mono hr _ _ _ _ _ _ _ h2)
    · cases h
  · cases h

theorem parse_call_mono {r} (hr : RMono r) :
    ∀ k fs s t v2 s2, parse_call r k fs s = .ok (t, v2, s2) → ScopeLE s s2 := by
  intro k fs s t v2 s2 h
  rw [parse_call] at h
  split at h
  · cases h
  next fV _ =>
    split at h
    · cases h
    next fTxt fV2 s' h1 =>
      split at h
      · cases h
      next as _ =>
        split at h
        · cases h
        next ts as2 s3 h2 =>
          cases h
          exact scopeLE_trans (hr _ _ _ _ _ h1) (seqR_mono hr _ _ _ _ _ h2)
      · cases h

theorem parse_dict_mono {r} (hr : RMono r) :
    ∀ k fs s t v2 s2, parse_dict r k fs s = .ok (t, v2, s2) → ScopeLE s s2 := by
  intro k fs s t v2 s2 h
  rw [parse_dict] at h
  split at h
  · cases h
  next ks _ =>
    split at h
    · cases h
    next vs _ =>
      split at h
      · cases h
      next ps ks2 vs2 s3 h1 =>
        cases h
        exact pairsR_mono hr _ _ _ _ _ _ _ h1
    · cases h
  · cases h

theorem parse_function_def_mono {r} (hr : RMono r) :
    ∀ k fs s t v2 s2, parse_function_def r k fs s = .ok (t, v2, s2) → ScopeLE s s2 := by
  intro k fs s t v2 s2 h
  rw [parse_function_def] at h
  split at h
  · cases h
  next argsV _ =>
    split at h
    · cases h
    next ps _ =>
      split at h
      · cases h
      next nameV _ =>
        split at h
        · cases h
        next argsTxt argsV2 sA h1 =>
          split at h
          · cases h
          next bodyV _ =>
            split at h
            · cases h
            next bodyTxt bodyV2 sB h2 =>
              cases h
              exact scopeLE_cons_tail
                (scopeLE_trans (hr _ _ _ _ _ h1) (hr _ _ _ _ _ h2))

theorem parse_lambda_mono {r} (hr : RMono r) :
    ∀ k fs s t v2 s2, parse_lambda r k fs s = .ok (t, v2, s2) → ScopeLE s s2 := by
  intro k fs s t v2 s2 h
  rw [parse_lambda] at h
  split at h
  · cases h
  next argsV _ =>
    split at h
    · cases h
    next ps _ =>
      split at h
      · cases h
      next argsTxt argsV2 sA h1 =>
        split at h
        · cases h
        next bodyV _ =>
          split at h
          · cases h
          next bodyTxt bodyV2 sB h2 =>
            cases h
            exact scopeLE_cons_tail
              (scopeLE_trans (hr _ _ _ _ _ h1) (hr _ _ _ _ _ h2))

theorem parse_list_mono {r} (hr : RMono r) :
    ∀ k fs s t v2 s2, parse_list r k fs s = .ok (t, v2, s2) → ScopeLE s s2 := by
  intro k fs s t v2 s2 h
  rw [parse_list] at h
  split at h
  · cases h
  next es _ =>
    split at h
    · cases h
    next ts es2 s3 h1 =>
      cases h
      exact seqR_mono hr _ _ _ _ _ h1
  · cases h

theorem parse_arguments_mono :
    ∀ k fs s t v2 s2, parse_arguments k fs s = .ok (t, v2, s2) → ScopeLE s s2 := by
  intro k fs s t v2 s2 h
  rw [parse_arguments] at h
  split at h
  · cases h
  · cases h
    exact scopeLE_refl s

theorem procR_mono {r} (hr : RMono r) :
    ∀ p k fs s t v2 s2, procR r p k fs s = .ok (t, v2, s2) → ScopeLE s s2 := by
  intro p k fs s t v2 s2 h
  cases p with
  | assign => exact parse_assign_mono hr _ _ _ _ _ _ h
  | boolOp => exact parse_bool_op_mono hr _ _ _ _ _ _ h
  | compare => exact parse_compare_mono hr _ _ _ _ _ _ h
  | call => exact parse_call_mono hr _ _ _ _ _ _ h
  | dictLit => exact parse_dict_mono hr _ _ _ _ _ _ h
  | functionDef => exact parse_function_def_mono hr _ _ _ _ _ _ h
  | lambdaFn => exact parse_lambda_mono hr _ _ _ _ _ _ h
  | listLit => exact parse_list_mono hr _ _ _ _ _ _ h
  | argumentsFn => exact parse_arguments_mono _ _ _ _ _ _ h

/-- Rendering only grows the scope it is handed: the only mutations are
identifier insertions into the current frame and balanced push/pop of
child frames. -/
theorem renderValue_mono : ∀ f, RMono (renderValue f) := by
  intro f
  induction f with
  | zero =>
    intro v s t v2 s2 h
    rw [renderValue_zero] at h
    cases h
  | succ f ih =>
    intro v s t v2 s2 h
    cases v with
    | vList xs =>
      rw [renderValue_list] at h
      split at h
      · cases h
      next ts xs2 s' h1 =>
        cases h
        exact seqR_mono ih _ _ _ _ _ h1
    | vNone =>
      rw [renderValue_none] at h
      cases h
      exact scopeLE_refl s
    | vStr str =>
      rw [renderValue_str] at h
      cases h
      exact scopeLE_refl s
    | vInt n =>
      rw [renderValue_int] at h
      cases h
      exact scopeLE_refl s
    | vBool b =>
      rw [renderValue_bool] at h
      cases h
      exact scopeLE_refl s
    | vNode kind fs =>
      rw [renderValue_node] at h
      split at h
      · cases h
      · split at h
        · cases h
        next t' fs2 s' h1 =>
          cases h
          exact templateR_mono ih _ _ _ _ _ _ _ h1
      · exact procR_mono ih _ _ _ _ _ _ _ h

/-!
Provenance of UnsupportedConstruct errors: the only place the renderer
raises Err.unsupported is the dispatch of _to_str on a kind with no
PARSERS entry; every helper merely propagates it.  Hence an unsupported
error always names a kind that is absent from the dispatch table.
-/

theorem argName_no_unsupported (v : Value) (k : String) :
    argName v ≠ .error (.unsupported k) := by
  intro h
  rw [argName.eq_def] at h
  split at h
  · split at h
    · cases h
    · simp at h
    · simp at h
  · simp at h

theorem argNames_no_unsupported (xs : List Value) (k : String) :
    argNames xs ≠ .error (.unsupported k) := by
  intro h
  induction xs with
  | nil => rw [argNames] at h; cases h
  | cons x xs ih =>
    rw [argNames] at h
    split at h
    next e h1 =>
      cases h
      exact argName_no_unsupported x k h1
    · split at h
      next e h2 =>
        cases h
        exact ih h2
      · cases h

theorem getParams_no_unsupported (v : Value) (k : String) :
    getParams v ≠ .error (.unsupported k) := by
  intro h
  rw [getParams.eq_def] at h
  split at h
  · split at h
    · exact argNames_no_unsupported _ _ h
    · simp at h
    · simp at h
  · simp at h

theorem seqR_errU {r} (hr : RNoU r) :
    ∀ xs s k, seqR r xs s = .error (.unsupported k) →
      List.lookup k PARSERS = Option.none := by
  intro xs
  induction xs with
  | nil =>
    intro s k h
    rw [seqR] at h
    cases h
  | cons x xs ih =>
    intro s k h
    rw [seqR] at h
    split at h
    next e h1 =>
      cases h
      exact hr _ _ _ h1
    next t x2 s' h1 =>
      split at h
      next e h2 =>
        cases h
        exact ih _ _ h2
      · cases h

theorem getItemR_errU {r} (hr : RNoU r) :
    ∀ fs pk s k k', getItemR r fs pk s k = .error (.unsupported k') →
      List.lookup k' PARSERS = Option.none := by
  intro fs pk s k k' h
  rw [getItemR] at h
  split at h
  · split at h
    · cases h
    · simp at h
  · split at h
    · simp at h
    next v0 _ =>
      split at h
      · cases h
      · split at h
        next e h1 =>
          cases h
          exact hr _ _ _ h1
        · cases h

theorem templateR_errU {r} (hr : RNoU r) :
    ∀ items fs pk s k, templateR r items fs pk s = .error (.unsupported k) →
      List.lookup k PARSERS = Option.none := by
  intro items
  induction items with
  | nil =>
    intro fs pk s k h
    rw [templateR] at h
    cases h
  | cons item rest ih =>
    intro fs pk s k h
    cases item with
    | lit l =>
      rw [templateR] at h
      split at h
      next e h1 =>
        cases h
        exact ih _ _ _ _ h1
      · cases h
    | hole key =>
      rw [templateR] at h
      split at h
      next e h1 =>
        cases h
        exact getItemR_errU hr _ _ _ _ _ h1
      next v fs' pk' s' h1 =>
        split at h
        next e h2 =>
          cases h
          exact ih _ _ _ _ h2
        · cases h

theorem assignLoopR_errU {r} (hr : RNoU r) (v : String) :
    ∀ ts s k, assignLoopR r v ts s = .error (.unsupported k) →
      List.lookup k PARSERS = Option.none := by
  intro ts
  induction ts with
  | nil =>
    intro s k h
    rw [assignLoopR] at h
    cases h
  | cons t ts ih =>
    intro s k h
    rw [assignLoopR] at h
    split at h
    next e h1 =>
      cases h
      exact hr _ _ _ h1
    next tx t2 s' h1 =>
      split at h
      next stmt s3 h2 =>
        split at h
        next e h3 =>
          cases h
          exact ih _ _ h3
        · cases h

theorem pairsR_errU {r} (hr : RNoU r) :
    ∀ os cs s k, pairsR r os cs s = .error (.unsupported k) →
      List.lookup k PARSERS = Option.none := by
  intro os
  induction os with
  | nil =>
    intro cs s k h
    rw [pairsR] at h
    cases h
  | cons o os ih =>
    intro cs s k h
    cases cs with
    | nil =>
      rw [pairsR] at h
      split at h
      next e h1 =>
        cases h
        exact hr _ _ _ h1
      · cases h
    | cons c cs =>
      rw [pairsR] at h
      split at h
      next e h1 =>
        cases h
        exact hr _ _ _ h1
      next oTxt o2 s' h1 =>
        split at h
        next e h2 =>
          cases h
          exact hr _ _ _ h2
        next cTxt c2 s'' h2 =>
          split at h
          next e h3 =>
            cases h
            exact ih _ _ _ h3
          · cases h

theorem parse_assign_errU {r} (hr : RNoU r) :
    ∀ k fs s k', parse_assign r k fs s = .error (.unsupported k') →
      List.lookup k' PARSERS = Option.none := by
  intro k fs s k' h
  rw [parse_assign] at h
  split at h
  · simp at h
  next valV _ =>
    split at h
    next e h1 =>
      cases h
      exact hr _ _ _ h1
    next vTxt valV2 s' h1 =>
      split at h
      · simp at h
      next ts _ =>
        split at h
        next e h2 =>
          cases h
          exact assignLoopR_errU hr _ _ _ _ h2
        · cases h
      · simp at h

theorem parse_bool_op_errU {r} (hr : RNoU r) :
    ∀ k fs s k', parse_bool_op r k fs s = .error (.unsupported k') →
      List.lookup k' PARSERS = Option.none := by
  intro k fs s k' h
  rw [parse_bool_op] at h
  split at h
  · simp at h
  next opV _ =>
    split at h
    next e h1 =>
      cases h
      exact hr _ _ _ h1
    next opTxt opV2 s' h1 =>
      split at h
      · simp at h
      next vs _ =>
        split at h
        next e h2 =>
          cases h
          exact seqR_errU hr _ _ _ h2
        · cases h
      · simp at h

theorem parse_compare_errU {r} (hr : RNoU r) :
    ∀ k fs s k', parse_compare r k fs s = .error (.unsupported k') →
      List.lookup k' PARSERS = Option.none := by
  intro k fs s k' h
  rw [parse_compare] at h
  split at h
  · simp at h
  next os _ =>
    split at h
    · simp at h
    next cs _ =>
      split at h
      · simp at h
      next leftV _ =>
        split at h
        next e h1 =>
          cases h
          exact hr _ _ _ h1
        next lTxt leftV2 s' h1 =>
          split at h
          next e h2 =>
            cases h
            exact pairsR_errU hr _ _ _ _ h2
          · cases h
    · simp at h
  · simp at h

theorem parse_call_errU {r} (hr : RNoU r) :
    ∀ k fs s k', parse_call r k fs s = .error (.unsupported k') →
      List.lookup k' PARSERS = Option.none := by
  intro k fs s k' h
  rw [parse_call] at h
  split at h
  · simp at h
  next fV _ =>
    split at h
    next e h1 =>
      cases h
      exact hr _ _ _ h1
    next fTxt fV2 s' h1 =>
      split at h
      · simp at h
      next as _ =>
        split at h
        next e h2 =>
          cases h
          exact seqR_errU hr _ _ _ h2
        · cases h
      · simp at h

theorem parse_dict_errU {r} (hr : RNoU r) :
    ∀ k fs s k', parse_dict r k fs s = .error (.unsupported k') →
      List.lookup k' PARSERS = Option.none := by
  intro k fs s k' h
  rw [parse_dict] at h
  split at h
  · simp at h
  next ks _ =>
    split at h
    · simp at h
    next vs _ =>
      split at h
      next e h1 =>
        cases h
        exact pairsR_errU hr _ _ _ _ h1
      · cases h
    · simp at h
  · simp at h

theorem parse_function_def_errU {r} (hr : RNoU r) :
    ∀ k fs s k', parse_function_def r k fs s = .error (.unsupported k') →
      List.lookup k' PARSERS = Option.none := by
  intro k fs s k' h
  rw [parse_function_def] at h
  split at h
  · simp at h
  next argsV _ =>
    split at h
    next e h1 =>
      cases h
      exact absurd h1 (getParams_no_unsupported _ _)
    next ps h1 =>
      split at h
      · simp at h
      next nameV _ =>
        split at h
        next e h2 =>
          cases h
          exact hr _ _ _ h2
        next argsTxt argsV2 sA h2 =>
          split at h
          · simp at h
          next bodyV _ =>
            split at h
            next e h3 =>
              cases h
              exact hr _ _ _ h3
            · cases h

theorem parse_lambda_errU {r} (hr : RNoU r) :
    ∀ k fs s k', parse_lambda r k fs s = .error (.unsupported k') →
      List.lookup k' PARSERS = Option.none := by
  intro k fs s k' h
  rw [parse_lambda] at h
  split at h
  · simp at h
  next argsV _ =>
    split at h
    next e h1 =>
      cases h
      exact absurd h1 (getParams_no_unsupported _ _)
    next ps h1 =>
      split at h
      next e h2 =>
        cases h
        exact hr _ _ _ h2
      next argsTxt argsV2 sA h2 =>
        split at h
        · simp at h
        next bodyV _ =>
          split at h
          next e h3 =>
            cases h
            exact hr _ _ _ h3
          · cases h

theorem parse_list_errU {r} (hr : RNoU r) :
    ∀ k fs s k', parse_list r k fs s = .error (.unsupported k') →
      List.lookup k' PARSERS = Option.none := by
  intro k fs s k' h
  rw [parse_list] at h
  split at h
  · simp at h
  next es _ =>
    split at h
    next e h1 =>
      cases h
      exact seqR_errU hr _ _ _ h1
    · cases h
  · simp at h

theorem parse_arguments_errU :
    ∀ k fs s k', parse_arguments k fs s = .error (.unsupported k') →
      List.lookup k' PARSERS = Option.none := by
  intro k fs s k' h
  rw [parse_arguments] at h
  split at h
  next e h1 =>
    cases h
    exact absurd h1 (getParams_no_unsupported _ _)
  · cases h

theorem procR_errU {r} (hr : RNoU r) :
    ∀ p k fs s k', procR r p k fs s = .error (.unsupported k') →
      List.lookup k' PARSERS = Option.none := by
  intro p k fs s k' h
  cases p with
  | assign => exact parse_assign_errU hr _ _ _ _ h
  | boolOp => exact parse_bool_op_errU hr _ _ _ _ h
  | compare => exact parse_compare_errU hr _ _ _ _ h
  | call => exact parse_call_errU hr _ _ _ _ h
  | dictLit => exact parse_dict_errU hr _ _ _ _ h
  | functionDef => exact parse_function_def_errU hr _ _ _ _ h
  | lambdaFn => exact parse_lambda_errU hr _ _ _ _ h
  | listLit => exact parse_list_errU hr _ _ _ _ h
  | argumentsFn => exact parse_arguments_errU _ _ _ _ h

/-- An UnsupportedConstruct error always names a kind that has no entry
in the dispatch table: the dispatch of _to_str is the only raise site
and every other rule only propagates the failure. -/
theorem renderValue_errU : ∀ f, RNoU (renderValue f) := by
  intro f
  induction f with
  | zero =>
    intro v s k h
    rw [renderValue_zero] at h
    simp at h
  | succ f ih =>
    intro v s k h
    cases v with
    | vList xs =>
      rw [renderValue_list] at h
      split at h
      next e h1 =>
        cases h
        exact seqR_errU ih _ _ _ h1
      · cases h
    | vNone => rw [renderValue_none] at h; cases h
    | vStr str => rw [renderValue_str] at h; cases h
    | vInt n => rw [renderValue_int] at h; cases h
    | vBool b => rw [renderValue_bool] at h; cases h
    | vNode kind fs =>
      rw [renderValue_node] at h
      split at h
      next h1 =>
        cases h
        exact h1
      · split at h
        next e h2 =>
          cases h
          exact templateR_errU ih _ _ _ _ _ h2
        · cases h
      · exact procR_errU ih _ _ _ _ _ h

/-!
Structural lemmas about the helper loops, used to decompose successful
renders statement by statement.
-/

theorem lookup_setField_self {fs : Fields} {b : String} {v0 : Value} (w : Value)
    (h : List.lookup b fs = some v0) :
    List.lookup b (setField fs b w) = some w := by
  induction fs with
  | nil => simp [List.lookup] at h
  | cons p rest ih =>
    obtain ⟨n, v⟩ := p
    by_cases hn : n = b
    · subst hn
      simp only [setField, List.map, if_pos rfl]
      rw [List.lookup]
      simp
    · have hb : (b == n) = false := beq_eq_false_iff_ne.mpr (fun hc => hn hc.symm)
      rw [List.lookup] at h
      simp only [hb] at h
      have hrec := ih h
      simp only [setField, List.map, if_neg hn]
      rw [List.lookup]
      simp only [hb]
      simpa [setField] using hrec

theorem seqR_length {r} :
    ∀ xs s ts xs2 s2, seqR r xs s = .ok (ts, xs2, s2) → ts.length = xs.length := by
  intro xs
  induction xs with
  | nil =>
    intro s ts xs2 s2 h
    rw [seqR] at h
    cases h
    rfl
  | cons x xs ih =>
    intro s ts xs2 s2 h
    rw [seqR] at h
    split at h
    · cases h
    next t x2 s' h1 =>
      split at h
      · cases h
      next ts' xs2' s'' h2 =>
        cases h
        simp [ih _ _ _ _ h2]

/-- Decomposition of a successful statement-sequence render: the element
at index i was rendered in some intermediate scope that extends the
starting scope, and produced the text at index i of the output. -/
theorem seqR_get {r} (hr : RMono r) :
    ∀ xs s ts xs2 s2, seqR r xs s = .ok (ts, xs2, s2) →
      ∀ i x, xs.get? i = some x →
        ∃ s1 t x2 sAfter, ScopeLE s s1 ∧ r x s1 = .ok (t, x2, sAfter) ∧
          ts.get? i = some t := by
  intro xs
  induction xs with
  | nil =>
    intro s ts xs2 s2 h i x hx
    simp at hx
  | cons y ys ih =>
    intro s ts xs2 s2 h i x hx
    rw [seqR] at h
    split at h
    · cases h
    next t y2 s' h1 =>
      split at h
      · cases h
      next ts' ys2 s'' h2 =>
        cases h
        cases i with
        | zero =>
          cases hx
          exact ⟨s, t, y2, s', scopeLE_refl s, h1, rfl⟩
        | succ i =>
          simp only [List.get?] at hx
          obtain ⟨s1, t', x2, sAfter, hle, hrx, hget⟩ := ih _ _ _ _ h2 i x hx
          exact ⟨s1, t', x2, sAfter, scopeLE_trans (hr _ _ _ _ _ h1) hle, hrx, hget⟩

theorem assignLoopR_shape {r} (v : String) :
    ∀ ts s stmts ts2 s2, assignLoopR r v ts s = .ok (stmts, ts2, s2) →
      stmts.length = ts.length ∧
      ∀ st ∈ stmts, ∃ t, st = t ++ " = " ++ v ∨ st = "var " ++ t ++ " = " ++ v := by
  intro ts
  induction ts with
  | nil =>
    intro s stmts ts2 s2 h
    rw [assignLoopR] at h
    cases h
    exact ⟨rfl, by intro st hst; simp at hst⟩
  | cons t ts ih =>
    intro s stmts ts2 s2 h
    rw [assignLoopR] at h
    split at h
    · cases h
    next tx t2 s' h1 =>
      split at h
      next stmt s3 h2 =>
        split at h
        · cases h
        next stmts' ts2' s4 h3 =>
          cases h
          obtain ⟨hlen, hform⟩ := ih _ _ _ _ h3
          refine ⟨by simp [hlen], ?_⟩
          intro st hst
          rcases List.mem_cons.mp hst with hst | hst
          · subst hst
            refine ⟨tx, ?_⟩
            rw [assignStep] at h2
            split at h2
            · cases h2
              exact Or.inl rfl
            · cases h2
              exact Or.inr rfl
          · exact hform st hst

/-- Decomposition of a successful assignment-target loop: the target at
index j was rendered in some intermediate scope extending the starting
one, and the emitted statement at index j is exactly the assignStep
decision taken against the scope as it stood after rendering that
target. -/
theorem assignLoopR_get {r} (hr : RMono r) (v : String) :
    ∀ ts s stmts ts2 s2, assignLoopR r v ts s = .ok (stmts, ts2, s2) →
      ∀ j t, ts.get? j = some t →
        ∃ s1 tx t2 sAfter, ScopeLE s s1 ∧ r t s1 = .ok (tx, t2, sAfter) ∧
          stmts.get? j = some (assignStep tx v sAfter).1 := by
  intro ts
  induction ts with
  | nil =>
    intro s stmts ts2 s2 h j t ht
    simp at ht
  | cons u us ih =>
    intro s stmts ts2 s2 h j t ht
    rw [assignLoopR] at h
    split at h
    · cases h
    next tx u2 s' h1 =>
      split at h
      next stmt s3 h2 =>
        split at h
        · cases h
        next stmts' us2 s4 h3 =>
          cases h
          cases j with
          | zero =>
            cases ht
            refine ⟨s, tx, u2, s', scopeLE_refl s, h1, ?_⟩
            rw [h2]
            rfl
          | succ j =>
            simp only [List.get?] at ht
            obtain ⟨s1, tx', t2, sAfter, hle, hrt, hget⟩ := ih _ _ _ _ h3 j t ht
            have hstep : ScopeLE s' s3 := by
              have := assignStep_scopeLE tx v s'
              rw [h2] at this
              exact this
            exact ⟨s1, tx', t2, sAfter,
              scopeLE_trans (hr _ _ _ _ _ h1) (scopeLE_trans hstep hle), hrt, hget⟩

theorem paramsFrame_contains {ps : List String} {x : String} (hx : x ∈ ps) :
    (paramsFrame ps).contains x = true := by
  have key : ∀ (l : List String) (fr : Frame), x ∈ l ∨ fr.contains x = true →
      (l.foldl (fun f p => addName p f) fr).contains x = true := by
    intro l
    induction l with
    | nil =>
      intro fr h
      rcases h with h | h
      · simp at h
      · exact h
    | cons p l ih =>
      intro fr h
      rw [List.foldl]
      rcases h with h | h
      · rcases List.mem_cons.mp h with h | h
        · subst h
          exact ih _ (Or.inr (contains_addName_self x fr))
        · exact ih _ (Or.inl h)
      · exact ih _ (Or.inr (contains_addName_mono p h))
  exact key ps [] (Or.inl hx)

/-!
Forward-evaluation lemmas: given the results of the sub-renders, each
lemma computes the result of the enclosing rule.  They let proofs build
a successful render bottom-up with the scope kept abstract.
-/

theorem renderValue_template_ok {f : Nat} (kind : String) {fs : Fields} {s : Scope}
    {items : List TItem} {out : String × Fields × Scope}
    (hlk : List.lookup kind PARSERS = some (.template items))
    (h : templateR (renderValue f) items fs [] s = .ok out) :
    renderValue (f+1) (.vNode kind fs) s = .ok (out.1, .vNode kind out.2.1, out.2.2) := by
  obtain ⟨t, fs2, s2⟩ := out
  rw [renderValue_node, hlk]
  simp only [h]

theorem renderValue_proc_eq {f : Nat} (kind : String) {fs : Fields} {s : Scope}
    {p : ProcKind} (hlk : List.lookup kind PARSERS = some (.proc p)) :
    renderValue (f+1) (.vNode kind fs) s = procR (renderValue f) p kind fs s := by
  rw [renderValue_node, hlk]

theorem renderValue_list_ok {f : Nat} {xs : List Value} {s : Scope}
    {ts : List String} {xs2 : List Value} {s2 : Scope}
    (h : seqR (renderValue f) xs s = .ok (ts, xs2, s2)) :
    renderValue (f+1) (.vList xs) s = .ok (String.intercalate ";\n" ts, .vList xs2, s2) := by
  rw [renderValue_list, h]

theorem seqR_nil {r} (s : Scope) : seqR r [] s = .ok ([], [], s) := rfl

theorem seqR_cons {r} {x : Value} {xs : List Value} {s : Scope}
    {t : String} {x2 : Value} {s2 : Scope} {ts : List String} {xs2 : List Value} {s3 : Scope}
    (h1 : r x s = .ok (t, x2, s2)) (h2 : seqR r xs s2 = .ok (ts, xs2, s3)) :
    seqR r (x :: xs) s = .ok (t :: ts, x2 :: xs2, s3) := by
  rw [seqR, h1]
  simp only [h2]

theorem templateR_nil {r} (fs : Fields) (pk : List String) (s : Scope) :
    templateR r [] fs pk s = .ok ("", fs, s) := rfl

theorem templateR_lit {r} {l : String} {rest : List TItem} {fs : Fields}
    {pk : List String} {s : Scope} {out : String × Fields × Scope}
    (h : templateR r rest fs pk s = .ok out) :
    templateR r (.lit l :: rest) fs pk s = .ok (l ++ out.1, out.2.1, out.2.2) := by
  obtain ⟨t, fs2, s2⟩ := out
  rw [templateR, h]

theorem templateR_hole {r} {k : String} {rest : List TItem} {fs : Fields}
    {pk : List String} {s : Scope} {v : Value} {fs2 : Fields} {pk2 : List String}
    {s2 : Scope} {out : String × Fields × Scope}
    (hg : getItemR r fs pk s k = .ok (v, fs2, pk2, s2))
    (h : templateR r rest fs2 pk2 s2 = .ok out) :
    templateR r (.hole k :: rest) fs pk s = .ok (pyStr v ++ out.1, out.2.1, out.2.2) := by
  obtain ⟨t, fs3, s3⟩ := out
  rw [templateR, hg]
  simp only [h]

theorem getItemR_fresh {r} {fs : Fields} {pk : List String} {s : Scope} {k b : String}
    {v0 : Value} {out : String × Value × Scope}
    (hb : baseKey k = b) (hraw : isRawKey k = false) (hpk : pk.contains b = false)
    (hlk : List.lookup b fs = some v0) (hr : r v0 s = .ok out) :
    getItemR r fs pk s k =
      .ok (.vStr out.1, setField fs b (.vStr out.1), b :: pk, out.2.2) := by
  obtain ⟨t, x2, s2⟩ := out
  simp only [getItemR, hb, hraw, hpk, hlk, hr, Bool.false_eq_true, if_false]

theorem getItemR_fresh_raw {r} {fs : Fields} {pk : List String} {s : Scope} {k b : String}
    {v0 : Value}
    (hb : baseKey k = b) (hraw : isRawKey k = true) (hpk : pk.contains b = false)
    (hlk : List.lookup b fs = some v0) :
    getItemR r fs pk s k = .ok (v0, fs, b :: pk, s) := by
  simp only [getItemR, hb, hraw, hpk, hlk, Bool.false_eq_true, if_false, if_true]

theorem getItemR_hit {r} {fs : Fields} {pk : List String} {s : Scope} {k b : String}
    {v0 : Value}
    (hb : baseKey k = b) (hpk : pk.contains b = true)
    (hlk : List.lookup b fs = some v0) :
    getItemR r fs pk s k = .ok (v0, fs, pk, s) := by
  simp only [getItemR, hb, hpk, hlk, if_true]

theorem assignLoopR_nil {r} (v : String) (s : Scope) :
    assignLoopR r v [] s = .ok ([], [], s) := rfl

theorem assignLoopR_cons {r} {v : String} {t : Value} {ts : List Value} {s : Scope}
    {tx : String} {t2 : Value} {s2 : Scope} {stmts : List String} {ts2 : List Value}
    {s4 : Scope}
    (h1 : r t s = .ok (tx, t2, s2))
    (h2 : assignLoopR r v ts (assignStep tx v s2).2 = .ok (stmts, ts2, s4)) :
    assignLoopR r v (t :: ts) s =
      .ok ((assignStep tx v s2).1 :: stmts, t2 :: ts2, s4) := by
  rw [assignLoopR, h1]
  simp only [h2]

theorem parse_assign_ok {r} (k : String) {fs : Fields} {s : Scope} {valV : Value}
    {vTxt : String} {valV2 : Value} {s2 : Scope} {ts : List Value}
    {stmts : List String} {ts2 : List Value} {s3 : Scope}
    (hval : List.lookup "value" fs = some valV)
    (hv : r valV s = .ok (vTxt, valV2, s2))
    (hts : List.lookup "targets" fs = some (.vList ts))
    (hloop : assignLoopR r vTxt ts s2 = .ok (stmts, ts2, s3)) :
    parse_assign r k fs s =
      .ok (String.intercalate ";" stmts,
           .vNode k (setField (setField fs "value" valV2) "targets" (.vList ts2)), s3) := by
  rw [parse_assign]
  simp only [hval, hv, hts, hloop]

/-- A Name node renders to its literal id (read through the raw_id
placeholder), with no scope effect and no field mutation. -/
theorem renderValue_name (f : Nat) (x : String) (s : Scope) :
    renderValue (f+1) (.vNode "Name" [("id", .vStr x)]) s
      = .ok (x, .vNode "Name" [("id", .vStr x)], s) := by
  have h1 : getItemR (renderValue f) [("id", .vStr x)] [] s "raw_id"
      = .ok (.vStr x, [("id", .vStr x)], ["id"], s) :=
    getItemR_fresh_raw rfl rfl rfl rfl
  have h2 := templateR_hole h1 (templateR_nil _ _ _)
  have h3 := renderValue_template_ok "Name" rfl h2
  simpa using h3

/-!
Claims.
-/

/-- C1 (code-bug evaluation): the program records only the characters of
an assignment target, because scope.add(t) in _parse_assign iterates the
target string.  Rendering the top-level program ab = 1; ab = 2 therefore
declares the two-character name ab twice - the claim's declaration-once
property fails on the code - and the name ab itself is never recorded in
the scope, only its characters a and b. -/
theorem multichar_redeclaration_bug :
    renderValue 10 (.vList [nAssign "ab" 1, nAssign "ab" 2]) [[]]
      = .ok ("var ab = 1;\nvar ab = 2",
             .vList [nAssign "ab" 1, nAssign "ab" 2], [["b", "a"]]) ∧
    ("var ab = 1;\nvar ab = 2" : String) ≠ "var ab = 1;\nab = 2" ∧
    containsScope "ab" [["b", "a"]] = false :=
  ⟨rfl, by decide, by decide⟩

/-- C2 counterexample: a chained assignment with two fresh targets is
rendered as the two statements joined by a bare semicolon, not by the
statement separator (semicolon followed by a line break) the claim
demands. -/
theorem chained_assign_separator_cex :
    renderValue 10 (.vNode "Assign"
        [("targets", .vList [.vNode "Name" [("id", .vStr "a")],
                             .vNode "Name" [("id", .vStr "b")]]),
         ("value", .vInt 10)]) [[]]
      = .ok ("var a = 10;var b = 10",
             .vNode "Assign"
               [("targets", .vList [.vNode "Name" [("id", .vStr "a")],
                                    .vNode "Name" [("id", .vStr "b")]]),
                ("value", .vInt 10)],
             [["b", "a"]]) ∧
    ("var a = 10;var b = 10" : String) ≠
      String.intercalate ";\n" ["var a = 10", "var b = 10"] :=
  ⟨rfl, by decide⟩

/-- C2 amended: a chained assignment with n targets renders n separate
statements joined by a bare semicolon (no line break); each target's
declaration-vs-assignment decision is made independently, in order,
against the threaded scope, and all statements reuse the single rendered
right-hand-side text. -/
theorem chained_assign_fanout (f : Nat) (fs : Fields) (s : Scope) (valV : Value)
    (ts : List Value) (out : String × Value × Scope)
    (hval : List.lookup "value" fs = some valV)
    (hts : List.lookup "targets" fs = some (.vList ts))
    (h : renderValue (f+1) (.vNode "Assign" fs) s = .ok out) :
    ∃ vTxt stmts, out.1 = String.intercalate ";" stmts ∧
      stmts.length = ts.length ∧
      ∀ st ∈ stmts, ∃ t, st = t ++ " = " ++ vTxt ∨ st = "var " ++ t ++ " = " ++ vTxt := by
  rw [renderValue_proc_eq "Assign" rfl] at h
  have h2 : parse_assign (renderValue f) "Assign" fs s = .ok out := h
  rw [parse_assign] at h2
  simp only [hval, hts] at h2
  split at h2
  · cases h2
  next vTxt valV2 s2 h3 =>
    split at h2
    · cases h2
    next stmts ts2 s3 h4 =>
      cases h2
      obtain ⟨hlen, hform⟩ := assignLoopR_shape vTxt ts s2 stmts ts2 s3 h4
      exact ⟨vTxt, stmts, rfl, hlen, hform⟩

/-- C2 witness: chained_assign_fanout applied to the concrete chained
assignment a = b = 10 at top level. -/
theorem chained_assign_fanout_witness :
    ∃ vTxt stmts, ("var a = 10;var b = 10" : String) = String.intercalate ";" stmts ∧
      stmts.length = 2 ∧
      ∀ st ∈ stmts, ∃ t, st = t ++ " = " ++ vTxt ∨ st = "var " ++ t ++ " = " ++ vTxt :=
  chained_assign_fanout 9
    [("targets", .vList [.vNode "Name" [("id", .vStr "a")],
                         .vNode "Name" [("id", .vStr "b")]]),
     ("value", .vInt 10)]
    [[]] (.vInt 10)
    [.vNode "Name" [("id", .vStr "a")], .vNode "Name" [("id", .vStr "b")]]
    ("var a = 10;var b = 10",
     .vNode "Assign"
       [("targets", .vList [.vNode "Name" [("id", .vStr "a")],
                            .vNode "Name" [("id", .vStr "b")]]),
        ("value", .vInt 10)],
     [["b", "a"]])
    rfl rfl rfl

/-- C9: rendering a node fails with an UnsupportedConstruct error naming
the node's own kind exactly when that kind has no entry in the dispatch
table (primitive inputs - lists, None, strings, ints, bools - never
dispatch); the error propagates to the caller through the Except result,
so no text is returned for that pass. -/
theorem unsupported_kind_error (f : Nat) (k : String) (fs : Fields) (s : Scope)
    (hf : 0 < f) :
    renderValue f (.vNode k fs) s = .error (.unsupported k) ↔
      List.lookup k PARSERS = Option.none := by
  constructor
  · intro h
    exact renderValue_errU f _ _ _ h
  · intro h
    obtain ⟨f', rfl⟩ : ∃ f', f = f' + 1 := ⟨f - 1, by omega⟩
    rw [renderValue_node, h]

/-- C9 witness: a Tuple node (a kind the table omits) is rejected with
an UnsupportedConstruct error naming Tuple. -/
theorem unsupported_kind_error_witness :
    renderValue 1 (.vNode "Tuple" []) [[]] = .error (.unsupported "Tuple") :=
  (unsupported_kind_error 1 "Tuple" [] [[]] (by decide)).mpr rfl

/-- C10: a statement sequence renders as the individual statement texts
joined by a semicolon and a line break with nothing appended after the
final statement, and the empty sequence renders as the empty string. -/
theorem stmt_sequence_join :
    (∀ f (s : Scope), renderValue (f+1) (.vList []) s = .ok ("", .vList [], s)) ∧
    (∀ f xs s out, renderValue (f+1) (.vList xs) s = .ok out →
        ∃ ts, out.1 = String.intercalate ";\n" ts ∧ ts.length = xs.length) := by
  constructor
  · intro f s
    rfl
  · intro f xs s out h
    rw [renderValue_list] at h
    split at h
    · cases h
    next ts xs2 s2 h1 =>
      cases h
      exact ⟨ts, rfl, seqR_length _ _ _ _ _ h1⟩

/-- C10 witness: the second part of stmt_sequence_join applied to a
two-statement sequence. -/
theorem stmt_sequence_join_witness :
    ∃ ts, ("var a = 10;\na = 20" : String) = String.intercalate ";\n" ts ∧
      ts.length = 2 :=
  stmt_sequence_join.2 9
    [.vNode "Assign" [("targets", .vList [.vNode "Name" [("id", .vStr "a")]]),
                      ("value", .vInt 10)],
     .vNode "Assign" [("targets", .vList [.vNode "Name" [("id", .vStr "a")]]),
                      ("value", .vInt 20)]]
    [[]]
    ("var a = 10;\na = 20",
     .vList
       [.vNode "Assign" [("targets", .vList [.vNode "Name" [("id", .vStr "a")]]),
                         ("value", .vInt 10)],
        .vNode "Assign" [("targets", .vList [.vNode "Name" [("id", .vStr "a")]]),
                         ("value", .vInt 20)]],
     [["a"]])
    rfl

/-- A template whose last item is a fixed literal produces text ending
in that literal. -/
theorem templateR_last_lit {r} :
    ∀ (items : List TItem) (l : String) fs pk s t fs2 s2,
      templateR r (items ++ [.lit l]) fs pk s = .ok (t, fs2, s2) →
      ∃ u, t = u ++ l := by
  intro items
  induction items with
  | nil =>
    intro l fs pk s t fs2 s2 h
    simp only [List.nil_append] at h
    rw [templateR] at h
    split at h
    · cases h
    next t' fs' s' h1 =>
      cases h
      rw [templateR] at h1
      cases h1
      exact ⟨"", by simp⟩
  | cons item rest ih =>
    intro l fs pk s t fs2 s2 h
    simp only [List.cons_append] at h
    cases item with
    | lit l' =>
      rw [templateR] at h
      split at h
      · cases h
      next t' fs' s' h1 =>
        cases h
        obtain ⟨u, hu⟩ := ih _ _ _ _ _ _ _ h1
        exact ⟨l' ++ u, by rw [hu, String.append_assoc]⟩
    | hole k =>
      rw [templateR] at h
      split at h
      · cases h
      next v fs' pk' s' h1 =>
        split at h
        · cases h
        next t' fs'' s'' h2 =>
          cases h
          obtain ⟨u, hu⟩ := ih _ _ _ _ _ _ _ h2
          exact ⟨pyStr v ++ u, by rw [hu, String.append_assoc]⟩

/-- C5 counterexample: a boolean operation over two names renders with
no wrapping parentheses at all, refuting the claim that every
BoolOp/Compare/BinOp/UnaryOp/Lambda/IfExp is wrapped. -/
theorem expr_parens_cex :
    renderValue 10 (.vNode "BoolOp"
        [("op", .vNode "And" []),
         ("values", .vList [.vNode "Name" [("id", .vStr "a")],
                            .vNode "Name" [("id", .vStr "b")]])]) [[]]
      = .ok ("a&&b",
             .vNode "BoolOp"
               [("op", .vNode "And" []),
                ("values", .vList [.vNode "Name" [("id", .vStr "a")],
                                   .vNode "Name" [("id", .vStr "b")]])],
             [[]]) ∧
    ("a&&b" : String).take 1 ≠ "(" :=
  ⟨rfl, by decide⟩

/-- C5 amended: binary operations, unary operations and lambdas are
wrapped in parentheses as the claim states, but the other three kinds
are not wrapped as a whole: a boolean operation joins its operand texts
with the operator text, a comparison joins the left operand and the
operator/comparand chain with spaces, and a conditional expression
parenthesizes each of its three parts individually. -/
theorem expr_parenthesization :
    (∀ f (fs : Fields) (s : Scope) out,
        renderValue (f+1) (.vNode "BinOp" fs) s = .ok out →
        ∃ u, out.1 = "(" ++ u ++ ")") ∧
    (∀ f (fs : Fields) (s : Scope) out,
        renderValue (f+1) (.vNode "UnaryOp" fs) s = .ok out →
        ∃ u, out.1 = "(" ++ u ++ ")") ∧
    (∀ f (fs : Fields) (s : Scope) out,
        renderValue (f+1) (.vNode "Lambda" fs) s = .ok out →
        ∃ u, out.1 = "(" ++ u ++ ")") ∧
    (∀ f (fs : Fields) (s : Scope) out,
        renderValue (f+1) (.vNode "BoolOp" fs) s = .ok out →
        ∃ opTxt parts, out.1 = String.intercalate opTxt parts) ∧
    (∀ f (fs : Fields) (s : Scope) out,
        renderValue (f+1) (.vNode "Compare" fs) s = .ok out →
        ∃ l chain, out.1 = l ++ " " ++ chain) ∧
    (∀ f (fs : Fields) (s : Scope) out,
        renderValue (f+1) (.vNode "IfExp" fs) s = .ok out →
        ∃ a b c, out.1 = "(" ++ a ++ ") ? (" ++ b ++ ") : (" ++ c ++ ")") := by
  refine ⟨?_, ?_, ?_, ?_, ?_, ?_⟩
  · intro f fs s out h
    have h2 : (match templateR (renderValue f)
          [.lit "(", .hole "left", .lit " ", .hole "op", .lit " ", .hole "right", .lit ")"]
          fs [] s with
        | Except.error e => Except.error e
        | Except.ok (t, fs2, s2) => Except.ok (t, Value.vNode "BinOp" fs2, s2))
        = Except.ok out := h
    split at h2
    · cases h2
    next t fs2 s2 h3 =>
      cases h2
      rw [templateR] at h3
      split at h3
      · cases h3
      next t1 fsa sa h4 =>
        cases h3
        obtain ⟨u, hu⟩ := templateR_last_lit
          [.hole "left", .lit " ", .hole "op", .lit " ", .hole "right"] ")"
          _ _ _ _ _ _ h4
        exact ⟨u, by rw [hu, String.append_assoc]⟩
  · intro f fs s out h
    have h2 : (match templateR (renderValue f)
          [.lit "(", .hole "op", .hole "operand", .lit ")"] fs [] s with
        | Except.error e => Except.error e
        | Except.ok (t, fs2, s2) => Except.ok (t, Value.vNode "UnaryOp" fs2, s2))
        = Except.ok out := h
    split at h2
    · cases h2
    next t fs2 s2 h3 =>
      cases h2
      rw [templateR] at h3
      split at h3
      · cases h3
      next t1 fsa sa h4 =>
        cases h3
        obtain ⟨u, hu⟩ := templateR_last_lit
          [.hole "op", .hole "operand"] ")" _ _ _ _ _ _ h4
        exact ⟨u, by rw [hu, String.append_assoc]⟩
  · intro f fs s out h
    have h2 : parse_lambda (renderValue f) "Lambda" fs s = .ok out := h
    rw [parse_lambda] at h2
    split at h2
    · cases h2
    next argsV _ =>
      split at h2
      · cases h2
      next ps hps =>
        split at h2
        · cases h2
        next argsTxt argsV2 sA h3 =>
          split at h2
          · cases h2
          next bodyV _ =>
            split at h2
            · cases h2
            next bodyTxt bodyV2 sB h4 =>
              cases h2
              refine ⟨"(" ++ argsTxt ++ ") => (" ++ bodyTxt ++ ")", ?_⟩
              have e1 : ("((" : String) = "(" ++ "(" := rfl
              have e2 : ("))" : String) = ")" ++ ")" := rfl
              simp only [e1, e2, String.append_assoc]
  · intro f fs s out h
    have h2 : parse_bool_op (renderValue f) "BoolOp" fs s = .ok out := h
    rw [parse_bool_op] at h2
    split at h2
    · cases h2
    next opV _ =>
      split at h2
      · cases h2
      next opTxt opV2 s2 h3 =>
        split at h2
        · cases h2
        next vs _ =>
          split at h2
          · cases h2
          next ts vs2 s3 h4 =>
            cases h2
            exact ⟨opTxt, ts, rfl⟩
        · cases h2
  · intro f fs s out h
    have h2 : parse_compare (renderValue f) "Compare" fs s = .ok out := h
    rw [parse_compare] at h2
    split at h2
    · cases h2
    next os _ =>
      split at h2
      · cases h2
      next cs _ =>
        split at h2
        · cases h2
        next leftV _ =>
          split at h2
          · cases h2
          next lTxt leftV2 s2 h3 =>
            split at h2
            · cases h2
            next ps os2 cs2 s3 h4 =>
              cases h2
              exact ⟨lTxt,
                String.intercalate " " (ps.map (fun p => p.1 ++ " " ++ p.2)),
                by rw [String.append_assoc]⟩
      · cases h2
    · cases h2
  · intro f fs s out h
    have h2 : (match templateR (renderValue f)
          [.lit "(", .hole "test", .lit ") ? (", .hole "body", .lit ") : (",
           .hole "orelse", .lit ")"] fs [] s with
        | Except.error e => Except.error e
        | Except.ok (t, fs2, s2) => Except.ok (t, Value.vNode "IfExp" fs2, s2))
        = Except.ok out := h
    split at h2
    · cases h2
    next t fs2 s2 h3 =>
      cases h2
      rw [templateR] at h3
      split at h3
      · cases h3
      next t1 fsa sa h4 =>
        cases h3
        rw [templateR] at h4
        split at h4
        · cases h4
        next v1 fsb pkb sb h5 =>
          split at h4
          · cases h4
          next t2 fsc sc h6 =>
            cases h4
            rw [templateR] at h6
            split at h6
            · cases h6
            next t3 fsd sd h7 =>
              cases h6
              rw [templateR] at h7
              split at h7
              · cases h7
              next v2 fse pke se h8 =>
                split at h7
                · cases h7
                next t4 fsf sf h9 =>
                  cases h7
                  rw [templateR] at h9
                  split at h9
                  · cases h9
                  next t5 fsg sg h10 =>
                    cases h9
                    rw [templateR] at h10
                    split at h10
                    · cases h10
                    next v3 fsh pkh sh' h11 =>
                      split at h10
                      · cases h10
                      next t6 fsi si h12 =>
                        cases h10
                        rw [templateR] at h12
                        split at h12
                        · cases h12
                        next t7 fsj sj h13 =>
                          cases h12
                          rw [templateR] at h13
                          cases h13
                          refine ⟨pyStr v1, pyStr v2, pyStr v3, ?_⟩
                          simp only [String.append_assoc, String.append_empty]

/-- C6 counterexample: rendering a Return node holding a Constant 5
overwrites the Return node's value field with the rendered text, so the
tree is not left unchanged and a second render pass sees the string "5"
where the Constant node used to be, re-quoting it. -/
theorem tree_mutation_cex :
    renderValue 10 (.vNode "Return" [("value", .vNode "Constant" [("value", .vInt 5)])]) [[]]
      = .ok ("return 5", .vNode "Return" [("value", .vStr "5")], [[]]) ∧
    renderValue 10 (.vNode "Return" [("value", .vStr "5")]) [[]]
      = .ok ("return \"5\"", .vNode "Return" [("value", .vStr "\"5\"")], [[]]) ∧
    ("return 5" : String) ≠ "return \"5\"" ∧
    Value.vStr "5" ≠ Value.vNode "Constant" [("value", .vInt 5)] :=
  ⟨rfl, rfl, by decide, fun h => by cases h⟩

/-- C6 amended: a template-rendered node is mutated in place - each
non-raw placeholder read overwrites the node's field with the rendered
text; only the parsed-keys marker is per-wrapper state.  A second render
pass over the same node therefore sees the stored rendered string in
place of the original field value and re-renders it as a quoted string
literal. -/
theorem render_overwrites_fields (f : Nat) (n : Int) (s : Scope) :
    renderValue (f+2) (.vNode "Constant" [("value", .vInt n)]) s
      = .ok (toString n, .vNode "Constant" [("value", .vStr (toString n))], s) ∧
    renderValue (f+2) (.vNode "Constant" [("value", .vStr (toString n))]) s
      = .ok ("\"" ++ toString n ++ "\"",
             .vNode "Constant" [("value", .vStr ("\"" ++ toString n ++ "\""))], s) ∧
    toString n ≠ "\"" ++ toString n ++ "\"" := by
  refine ⟨?_, ?_, ?_⟩
  · have h1 : getItemR (renderValue (f+1)) [("value", .vInt n)] [] s "value"
        = .ok (.vStr (toString n), [("value", .vStr (toString n))], ["value"], s) :=
      getItemR_fresh (show baseKey "value" = "value" from rfl)
        (show isRawKey "value" = false from rfl)
        (show List.contains ([] : List String) "value" = false from rfl)
        (show List.lookup "value" [("value", Value.vInt n)] = some (.vInt n) from rfl)
        (renderValue_int f n s)
    have h2 := templateR_hole h1 (templateR_nil _ _ _)
    have h3 := renderValue_template_ok "Constant" rfl h2
    simpa using h3
  · have h1 : getItemR (renderValue (f+1)) [("value", .vStr (toString n))] [] s "value"
        = .ok (.vStr ("\"" ++ toString n ++ "\""),
               [("value", .vStr ("\"" ++ toString n ++ "\""))], ["value"], s) :=
      getItemR_fresh (show baseKey "value" = "value" from rfl)
        (show isRawKey "value" = false from rfl)
        (show List.contains ([] : List String) "value" = false from rfl)
        (show List.lookup "value" [("value", Value.vStr (toString n))]
          = some (.vStr (toString n)) from rfl)
        (renderValue_str f (toString n) s)
    have h2 := templateR_hole h1 (templateR_nil _ _ _)
    have h3 := renderValue_template_ok "Constant" rfl h2
    simpa using h3
  · intro h
    have hl := congrArg String.length h
    rw [String.length_append, String.length_append] at hl
    have h1 : ("\"" : String).length = 1 := rfl
    rw [h1] at hl
    omega

/-- C8: within one rendering of a node's template, a field is computed
at most once; after a read of a placeholder, any further read of a
placeholder with the same base field (raw-prefixed or not) returns the
stored value and leaves the wrapper state - field dict, parsed-key set
and scope - unchanged, so both reads yield identical text. -/
theorem memoized_field_read (f : Nat) (fs : Fields) (pk : List String) (s : Scope)
    (k k2 : String) (v : Value) (fs2 : Fields) (pk2 : List String) (s2 : Scope)
    (hbase : baseKey k2 = baseKey k)
    (h : getItemR (renderValue f) fs pk s k = .ok (v, fs2, pk2, s2)) :
    getItemR (renderValue f) fs2 pk2 s2 k2 = .ok (v, fs2, pk2, s2) := by
  rw [getItemR] at h
  split at h
  next hpk =>
    split at h
    next v0 hlk =>
      cases h
      exact getItemR_hit hbase hpk hlk
    · cases h
  next hpk =>
    split at h
    · cases h
    next v0 hlk =>
      split at h
      next hraw =>
        cases h
        exact getItemR_hit hbase (by simp) hlk
      next hraw =>
        split at h
        · cases h
        next t x2 s' hr =>
          cases h
          exact getItemR_hit hbase (by simp)
            (lookup_setField_self (.vStr t) hlk)

/-- C8 witness: a first (rendering) read of the value field stores the
rendered text; memoized_field_read applied to it shows the second read
returns the same stored text and changes nothing. -/
theorem memoized_field_read_witness :
    getItemR (renderValue 5) [("value", .vStr "7")] ["value"] [[]] "value"
      = .ok (.vStr "7", [("value", .vStr "7")], ["value"], [[]]) :=
  memoized_field_read 5 [("value", .vInt 7)] [] [[]] "value" "value"
    (.vStr "7") [("value", .vStr "7")] ["value"] [[]] rfl rfl

/-- C4 counterexample: in a for loop over a fresh loop variable i whose
body assigns to i, the assignment is rendered with a var declaration and
i is recorded in the enclosing scope frame - the For rule is a static
template that renders the body in the enclosing scope, with no child
scope and no pre-declared loop variable. -/
theorem for_loop_scope_cex :
    renderValue 10 (.vNode "For"
        [("iter", nName "xs"), ("target", nName "i"),
         ("body", .vList [nAssign "i" 5])]) [[]]
      = .ok ("xs.forEach((i, _i) => \x7b\nvar i = 5\n\x7d)",
             .vNode "For"
               [("iter", .vStr "xs"), ("target", .vStr "i"), ("body", .vStr "var i = 5")],
             [["i"]]) ∧
    ("xs.forEach((i, _i) => \x7b\nvar i = 5\n\x7d)" : String)
      ≠ "xs.forEach((i, _i) => \x7b\ni = 5\n\x7d)" ∧
    ([["i"]] : Scope) ≠ [[]] :=
  ⟨rfl, by decide, by decide⟩

/-- C4 amended: a for loop renders as a forEach-style callback over the
rendered iterable, but the loop body is rendered in the same scope as
the enclosing code: the loop variable is not pre-declared, so a first
assignment to it inside the body emits a var declaration, and the
characters of the target string (scope.add iterates its argument) are
recorded in the enclosing scope's current frame. -/
theorem for_loop_shared_scope (f : Nat) (it x : String) (n : Int) (s : Scope)
    (hc : containsScope x s = false)
    (hd : x.data.contains '.' = false) (hb : x.data.contains '[' = false) :
    renderValue (f+5) (.vNode "For"
        [("iter", nName it), ("target", nName x),
         ("body", .vList [nAssign x n])]) s
      = .ok (it ++ ".forEach((" ++ x ++ ", _i) => \x7b\n" ++
               "var " ++ x ++ " = " ++ toString n ++ "\n\x7d)",
             .vNode "For"
               [("iter", .vStr it), ("target", .vStr x),
                ("body", .vStr ("var " ++ x ++ " = " ++ toString n))],
             scopeAddChars x s) := by
  have hstep : assignStep x (toString n) s =
      ("var " ++ x ++ " = " ++ toString n, scopeAddChars x s) := by
    have hd' : '.' ∉ x.data := by simpa using hd
    have hb' : '[' ∉ x.data := by simpa using hb
    rw [assignStep, if_neg (fun hcc => by simp [hc, hd', hb'] at hcc)]
  have hname : renderValue (f+2) (nName x) s = .ok (x, nName x, s) :=
    renderValue_name (f+1) x s
  have hloop : assignLoopR (renderValue (f+2)) (toString n) [nName x] s
      = .ok (["var " ++ x ++ " = " ++ toString n], [nName x], scopeAddChars x s) := by
    have h0 := assignLoopR_cons hname
      (assignLoopR_nil (toString n) (assignStep x (toString n) s).2)
    rw [hstep] at h0
    exact h0
  have hassign : renderValue (f+3) (nAssign x n) s
      = .ok ("var " ++ x ++ " = " ++ toString n, nAssign x n, scopeAddChars x s) := by
    rw [show nAssign x n =
      Value.vNode "Assign" [("targets", .vList [nName x]), ("value", .vInt n)] from rfl]
    rw [renderValue_proc_eq "Assign" rfl]
    have h0 := parse_assign_ok "Assign"
      (show List.lookup "value"
        [("targets", Value.vList [nName x]), ("value", Value.vInt n)]
        = some (.vInt n) from rfl)
      (renderValue_int (f+1) n s)
      (show List.lookup "targets"
        [("targets", Value.vList [nName x]), ("value", Value.vInt n)]
        = some (.vList [nName x]) from rfl)
      hloop
    exact h0
  have hbody : renderValue (f+4) (.vList [nAssign x n]) s
      = .ok ("var " ++ x ++ " = " ++ toString n, .vList [nAssign x n], scopeAddChars x s) := by
    have h0 := renderValue_list_ok (seqR_cons hassign (seqR_nil (scopeAddChars x s)))
    exact h0
  have hG1 : getItemR (renderValue (f+4))
      [("iter", nName it), ("target", nName x), ("body", .vList [nAssign x n])] [] s "iter"
      = .ok (.vStr it,
             [("iter", .vStr it), ("target", nName x), ("body", .vList [nAssign x n])],
             ["iter"], s) :=
    getItemR_fresh (show baseKey "iter" = "iter" from rfl)
      (show isRawKey "iter" = false from rfl)
      (show List.contains ([] : List String) "iter" = false from rfl)
      (show List.lookup "iter"
        [("iter", nName it), ("target", nName x), ("body", .vList [nAssign x n])]
        = some (nName it) from rfl)
      (renderValue_name (f+3) it s)
  have hG2 : getItemR (renderValue (f+4))
      [("iter", .vStr it), ("target", nName x), ("body", .vList [nAssign x n])]
      ["iter"] s "target"
      = .ok (.vStr x,
             [("iter", .vStr it), ("target", .vStr x), ("body", .vList [nAssign x n])],
             ["target", "iter"], s) :=
    getItemR_fresh (show baseKey "target" = "target" from rfl)
      (show isRawKey "target" = false from rfl)
      (show List.contains ["iter"] "target" = false from rfl)
      (show List.lookup "target"
        [("iter", .vStr it), ("target", nName x), ("body", .vList [nAssign x n])]
        = some (nName x) from rfl)
      (renderValue_name (f+3) x s)
  have hG3 : getItemR (renderValue (f+4))
      [("iter", .vStr it), ("target", .vStr x), ("body", .vList [nAssign x n])]
      ["target", "iter"] s "body"
      = .ok (.vStr ("var " ++ x ++ " = " ++ toString n),
             [("iter", .vStr it), ("target", .vStr x),
              ("body", .vStr ("var " ++ x ++ " = " ++ toString n))],
             ["body", "target", "iter"], scopeAddChars x s) :=
    getItemR_fresh (show baseKey "body" = "body" from rfl)
      (show isRawKey "body" = false from rfl)
      (show List.contains ["target", "iter"] "body" = false from rfl)
      (show List.lookup "body"
        [("iter", .vStr it), ("target", .vStr x), ("body", .vList [nAssign x n])]
        = some (.vList [nAssign x n]) from rfl)
      hbody
  have htpl : templateR (renderValue (f+4))
      [.hole "iter", .lit ".forEach((", .hole "target", .lit ", _i) => \x7b\n",
       .hole "body", .lit "\n\x7d)"]
      [("iter", nName it), ("target", nName x), ("body", .vList [nAssign x n])] [] s
      = .ok (it ++ (".forEach((" ++ (x ++ (", _i) => \x7b\n" ++
               (("var " ++ x ++ " = " ++ toString n) ++ ("\n\x7d)" ++ ""))))),
             [("iter", .vStr it), ("target", .vStr x),
              ("body", .vStr ("var " ++ x ++ " = " ++ toString n))],
             scopeAddChars x s) :=
    templateR_hole hG1 (templateR_lit (templateR_hole hG2 (templateR_lit
      (templateR_hole hG3 (templateR_lit
        (templateR_nil [("iter", .vStr it), ("target", .vStr x),
                        ("body", .vStr ("var " ++ x ++ " = " ++ toString n))]
          ["body", "target", "iter"] (scopeAddChars x s)))))))
  have hfin := renderValue_template_ok "For" rfl htpl
  refine Eq.trans hfin ?_
  simp only [String.append_assoc, String.append_empty]

/-- A single-target assignment to a plain name renders to exactly the
assignStep decision taken against the current scope. -/
theorem renderValue_assign_single (f : Nat) (x : String) (n : Int) (s : Scope) :
    renderValue (f+2) (nAssign x n) s
      = .ok ((assignStep x (toString n) s).1, nAssign x n,
             (assignStep x (toString n) s).2) := by
  rw [show nAssign x n =
    Value.vNode "Assign" [("targets", .vList [nName x]), ("value", .vInt n)] from rfl]
  rw [renderValue_proc_eq "Assign" rfl]
  exact parse_assign_ok "Assign"
    (show List.lookup "value"
      [("targets", Value.vList [nName x]), ("value", Value.vInt n)]
      = some (.vInt n) from rfl)
    (renderValue_int f n s)
    (show List.lookup "targets"
      [("targets", Value.vList [nName x]), ("value", Value.vInt n)]
      = some (.vList [nName x]) from rfl)
    (assignLoopR_cons (renderValue_name f x s)
      (assignLoopR_nil (toString n) (assignStep x (toString n) s).2))

/-- C7 corrected: the two branches of a conditional render in the same
scope frame as the enclosing code, the if branch first, so the else
branch's declaration decision is taken against the scope as already
mutated by the if branch (first conjunct, for an arbitrary fresh name
x); because the recording is character-wise, the else branch actually
emits a plain assignment exactly when the containment check finds the
name among the recorded characters - in particular for every
one-character name, whose recording also persists in the shared frame
after the conditional (second conjunct). -/
theorem if_branches_share_scope :
    (∀ (f : Nat) (c x : String) (n1 n2 : Int) (s : Scope),
      containsScope x s = false →
      x.data.contains '.' = false → x.data.contains '[' = false →
      renderValue (f+5) (.vNode "If"
          [("test", nName c), ("body", .vList [nAssign x n1]),
           ("orelse", .vList [nAssign x n2])]) s
        = .ok ("if (" ++ c ++ ") \x7b\n" ++ "var " ++ x ++ " = " ++ toString n1 ++
                 "\n\x7d else \x7b\n" ++
                 (assignStep x (toString n2) (scopeAddChars x s)).1 ++ "\n\x7d",
               .vNode "If"
                 [("test", .vStr c),
                  ("body", .vStr ("var " ++ x ++ " = " ++ toString n1)),
                  ("orelse", .vStr (assignStep x (toString n2) (scopeAddChars x s)).1)],
               (assignStep x (toString n2) (scopeAddChars x s)).2)) ∧
    (∀ (ch : Char) (v : String) (s : Scope), s ≠ [] →
      assignStep (charStr ch) v (scopeAddChars (charStr ch) s)
        = (charStr ch ++ " = " ++ v, scopeAddChars (charStr ch) s) ∧
      containsScope (charStr ch) (scopeAddChars (charStr ch) s) = true) := by
  constructor
  · intro f c x n1 n2 s hc hd hb
    have hd' : '.' ∉ x.data := by simpa using hd
    have hb' : '[' ∉ x.data := by simpa using hb
    have hstep1 : assignStep x (toString n1) s =
        ("var " ++ x ++ " = " ++ toString n1, scopeAddChars x s) := by
      rw [assignStep, if_neg (fun hcc => by simp [hc, hd', hb'] at hcc)]
    have hassign1 : renderValue (f+3) (nAssign x n1) s
        = .ok ("var " ++ x ++ " = " ++ toString n1, nAssign x n1, scopeAddChars x s) := by
      have h0 := renderValue_assign_single (f+1) x n1 s
      rw [hstep1] at h0
      exact h0
    have hassign2 : renderValue (f+3) (nAssign x n2) (scopeAddChars x s)
        = .ok ((assignStep x (toString n2) (scopeAddChars x s)).1, nAssign x n2,
               (assignStep x (toString n2) (scopeAddChars x s)).2) :=
      renderValue_assign_single (f+1) x n2 (scopeAddChars x s)
    have hbody1 : renderValue (f+4) (.vList [nAssign x n1]) s
        = .ok ("var " ++ x ++ " = " ++ toString n1, .vList [nAssign x n1],
               scopeAddChars x s) := by
      have h0 := renderValue_list_ok (seqR_cons hassign1 (seqR_nil (scopeAddChars x s)))
      exact h0
    have hbody2 : renderValue (f+4) (.vList [nAssign x n2]) (scopeAddChars x s)
        = .ok ((assignStep x (toString n2) (scopeAddChars x s)).1,
               .vList [nAssign x n2],
               (assignStep x (toString n2) (scopeAddChars x s)).2) := by
      have h0 := renderValue_list_ok (seqR_cons hassign2
        (seqR_nil (assignStep x (toString n2) (scopeAddChars x s)).2))
      exact h0
    have hG1 : getItemR (renderValue (f+4))
        [("test", nName c), ("body", .vList [nAssign x n1]),
         ("orelse", .vList [nAssign x n2])] [] s "test"
        = .ok (.vStr c,
               [("test", .vStr c), ("body", .vList [nAssign x n1]),
                ("orelse", .vList [nAssign x n2])],
               ["test"], s) :=
      getItemR_fresh (show baseKey "test" = "test" from rfl)
        (show isRawKey "test" = false from rfl)
        (show List.contains ([] : List String) "test" = false from rfl)
        (show List.lookup "test"
          [("test", nName c), ("body", .vList [nAssign x n1]),
           ("orelse", .vList [nAssign x n2])] = some (nName c) from rfl)
        (renderValue_name (f+3) c s)
    have hG2 : getItemR (renderValue (f+4))
        [("test", .vStr c), ("body", .vList [nAssign x n1]),
         ("orelse", .vList [nAssign x n2])] ["test"] s "body"
        = .ok (.vStr ("var " ++ x ++ " = " ++ toString n1),
               [("test", .vStr c), ("body", .vStr ("var " ++ x ++ " = " ++ toString n1)),
                ("orelse", .vList [nAssign x n2])],
               ["body", "test"], scopeAddChars x s) :=
      getItemR_fresh (show baseKey "body" = "body" from rfl)
        (show isRawKey "body" = false from rfl)
        (show List.contains ["test"] "body" = false from rfl)
        (show List.lookup "body"
          [("test", .vStr c), ("body", .vList [nAssign x n1]),
           ("orelse", .vList [nAssign x n2])] = some (.vList [nAssign x n1]) from rfl)
        hbody1
    have hG3 : getItemR (renderValue (f+4))
        [("test", .vStr c), ("body", .vStr ("var " ++ x ++ " = " ++ toString n1)),
         ("orelse", .vList [nAssign x n2])] ["body", "test"] (scopeAddChars x s) "orelse"
        = .ok (.vStr (assignStep x (toString n2) (scopeAddChars x s)).1,
               [("test", .vStr c), ("body", .vStr ("var " ++ x ++ " = " ++ toString n1)),
                ("orelse", .vStr (assignStep x (toString n2) (scopeAddChars x s)).1)],
               ["orelse", "body", "test"],
               (assignStep x (toString n2) (scopeAddChars x s)).2) :=
      getItemR_fresh (show baseKey "orelse" = "orelse" from rfl)
        (show isRawKey "orelse" = false from rfl)
        (show List.contains ["body", "test"] "orelse" = false from rfl)
        (show List.lookup "orelse"
          [("test", .vStr c), ("body", .vStr ("var " ++ x ++ " = " ++ toString n1)),
           ("orelse", .vList [nAssign x n2])] = some (.vList [nAssign x n2]) from rfl)
        hbody2
    have htpl : templateR (renderValue (f+4))
        [.lit "if (", .hole "test", .lit ") \x7b\n", .hole "body",
         .lit "\n\x7d else \x7b\n", .hole "orelse", .lit "\n\x7d"]
        [("test", nName c), ("body", .vList [nAssign x n1]),
         ("orelse", .vList [nAssign x n2])] [] s
        = .ok ("if (" ++ (c ++ (") \x7b\n" ++ (("var " ++ x ++ " = " ++ toString n1) ++
                 ("\n\x7d else \x7b\n" ++
                  ((assignStep x (toString n2) (scopeAddChars x s)).1 ++
                   ("\n\x7d" ++ "")))))),
               [("test", .vStr c), ("body", .vStr ("var " ++ x ++ " = " ++ toString n1)),
                ("orelse", .vStr (assignStep x (toString n2) (scopeAddChars x s)).1)],
               (assignStep x (toString n2) (scopeAddChars x s)).2) :=
      templateR_lit (templateR_hole hG1 (templateR_lit (templateR_hole hG2
        (templateR_lit (templateR_hole hG3 (templateR_lit
          (templateR_nil [("test", .vStr c),
                          ("body", .vStr ("var " ++ x ++ " = " ++ toString n1)),
                          ("orelse", .vStr (assignStep x (toString n2) (scopeAddChars x s)).1)]
            ["orelse", "body", "test"]
            (assignStep x (toString n2) (scopeAddChars x s)).2)))))))
    have hfin := renderValue_template_ok "If" rfl htpl
    refine Eq.trans hfin ?_
    simp only [String.append_assoc, String.append_empty]
  · intro ch v s hs
    have h1 : containsScope (charStr ch) (scopeAdd (charStr ch) s) = true :=
      containsScope_scopeAdd_self _ hs
    rw [scopeAddChars_single]
    exact ⟨by rw [assignStep, if_pos (by simp [h1])], h1⟩

/-- C7 counterexample: for the two-character name ab the else branch
re-emits a declaration, refuting the claim that a name first declared in
the if branch is always rendered as a plain assignment in the else
branch; the shared frame holds only the characters a and b. -/
theorem if_branch_decl_cex :
    renderValue 10 (.vNode "If"
        [("test", nName "cond"), ("body", .vList [nAssign "ab" 1]),
         ("orelse", .vList [nAssign "ab" 2])]) [[]]
      = .ok ("if (cond) \x7b\nvar ab = 1\n\x7d else \x7b\nvar ab = 2\n\x7d",
             .vNode "If"
               [("test", .vStr "cond"), ("body", .vStr "var ab = 1"),
                ("orelse", .vStr "var ab = 2")],
             [["b", "a"]]) ∧
    ("if (cond) \x7b\nvar ab = 1\n\x7d else \x7b\nvar ab = 2\n\x7d" : String)
      ≠ "if (cond) \x7b\nvar ab = 1\n\x7d else \x7b\nab = 2\n\x7d" :=
  ⟨rfl, by decide⟩

/-- C7 witness: both parts of if_branches_share_scope at the concrete
conditional over the one-character name b from the repository test. -/
theorem if_branches_share_scope_witness :
    (renderValue 10 (.vNode "If"
        [("test", nName "cond"), ("body", .vList [nAssign "b" 20]),
         ("orelse", .vList [nAssign "b" 2])]) [["a"]]
      = .ok ("if (" ++ "cond" ++ ") \x7b\n" ++ "var " ++ "b" ++ " = " ++ toString (20:Int) ++
               "\n\x7d else \x7b\n" ++ ("b" ++ " = " ++ toString (2:Int)) ++ "\n\x7d",
             .vNode "If"
               [("test", .vStr "cond"),
                ("body", .vStr ("var " ++ "b" ++ " = " ++ toString (20:Int))),
                ("orelse", .vStr ("b" ++ " = " ++ toString (2:Int)))],
             [["b", "a"]])) ∧
    (assignStep (charStr 'b') "2" (scopeAddChars (charStr 'b') [["a"]])
        = (charStr 'b' ++ " = " ++ "2", scopeAddChars (charStr 'b') [["a"]]) ∧
      containsScope (charStr 'b') (scopeAddChars (charStr 'b') [["a"]]) = true) :=
  ⟨if_branches_share_scope.1 5 "cond" "b" 20 2 [["a"]]
    (by decide) (by decide) (by decide),
   if_branches_share_scope.2 'b' "2" [["a"]] (by decide)⟩

/-- C4 witness: for_loop_shared_scope at the concrete loop over i. -/
theorem for_loop_shared_scope_witness :
    renderValue 10 (.vNode "For"
        [("iter", nName "xs"), ("target", nName "i"),
         ("body", .vList [nAssign "i" 5])]) [[]]
      = .ok ("xs" ++ ".forEach((" ++ "i" ++ ", _i) => \x7b\n" ++
               "var " ++ "i" ++ " = " ++ toString (5:Int) ++ "\n\x7d)",
             .vNode "For"
               [("iter", .vStr "xs"), ("target", .vStr "i"),
                ("body", .vStr ("var " ++ "i" ++ " = " ++ toString (5:Int)))],
             scopeAddChars "i" [[]]) :=
  for_loop_shared_scope 5 "xs" "i" 5 [[]] (by decide) (by decide) (by decide)

theorem renderValue_nName (f : Nat) (x : String) (s : Scope) :
    renderValue (f+1) (nName x) s = .ok (x, nName x, s) :=
  renderValue_name f x s

/-- C3: rendering a function definition pushes a child frame
pre-charged with all parameter names and renders the body there, so an
assignment statement in the body whose target list contains a parameter
name x emits, at that target's position, the plain statement x = rhs
with no declaration keyword; a lambda likewise renders its body in a
child frame in which every parameter name counts as declared. -/
theorem param_assignment_plain :
    (∀ fuel (fs : Fields) (s : Scope) (i j : Nat) (x nm : String) (ps : List String)
        (argsV : Value) (body : List Value) (nAfs : Fields) (tgts : List Value) out,
      List.lookup "name" fs = some (.vStr nm) →
      List.lookup "args" fs = some argsV →
      getParams argsV = .ok ps →
      x ∈ ps →
      List.lookup "body" fs = some (.vList body) →
      body.get? i = some (.vNode "Assign" nAfs) →
      List.lookup "targets" nAfs = some (.vList tgts) →
      tgts.get? j = some (nName x) →
      renderValue fuel (.vNode "FunctionDef" fs) s = .ok out →
      ∃ argsTxt bodyTexts stmts rhs,
        out.1 = "function " ++ nm ++ "(" ++ argsTxt ++ ") \x7b\n" ++
          String.intercalate ";\n" bodyTexts ++ "\n\x7d" ∧
        bodyTexts.get? i = some (String.intercalate ";" stmts) ∧
        stmts.get? j = some (x ++ " = " ++ rhs)) ∧
    (∀ fuel (lfs : Fields) (s : Scope) (x : String) (ps : List String)
        (argsV : Value) out,
      List.lookup "args" lfs = some argsV →
      getParams argsV = .ok ps →
      x ∈ ps →
      renderValue fuel (.vNode "Lambda" lfs) s = .ok out →
      ∃ g argsTxt argsV2 sA bodyV bodyTxt bodyV2 sB,
        fuel = g + 1 ∧
        renderValue g argsV (paramsFrame ps :: s) = .ok (argsTxt, argsV2, sA) ∧
        List.lookup "body" lfs = some bodyV ∧
        renderValue g bodyV sA = .ok (bodyTxt, bodyV2, sB) ∧
        out.1 = "((" ++ argsTxt ++ ") => (" ++ bodyTxt ++ "))" ∧
        containsScope x sA = true) := by
  constructor
  · intro fuel fs s i j x nm ps argsV body nAfs tgts out
    intro hnm hargs hps hx hbodyf hstmt htargets htj h8
    cases fuel with
    | zero =>
      rw [renderValue_zero] at h8
      cases h8
    | succ g =>
      rw [renderValue_proc_eq "FunctionDef" rfl] at h8
      have h9 : parse_function_def (renderValue g) "FunctionDef" fs s = .ok out := h8
      rw [parse_function_def] at h9
      simp only [hargs, hps, hnm, hbodyf] at h9
      split at h9
      · cases h9
      next argsTxt argsV2 sA hargsR =>
        split at h9
        · cases h9
        next bodyTxt bodyV2 sB hbodyR =>
          cases h9
          have hxnew : containsScope x (paramsFrame ps :: s) = true := by
            rw [containsScope_cons, paramsFrame_contains hx, Bool.true_or]
          have hxA : containsScope x sA = true :=
            containsScope_mono (renderValue_mono g _ _ _ _ _ hargsR) x hxnew
          cases g with
          | zero =>
            rw [renderValue_zero] at hbodyR
            cases hbodyR
          | succ g2 =>
            rw [renderValue_list] at hbodyR
            split at hbodyR
            · cases hbodyR
            next bodyTexts body2 sB' hseq =>
              cases hbodyR
              obtain ⟨s1, tA, xA2, sAfter, hleA, hrA, hgetA⟩ :=
                seqR_get (renderValue_mono g2) body sA _ _ _ hseq
                  i _ hstmt
              have hx1 : containsScope x s1 = true :=
                containsScope_mono hleA x hxA
              cases g2 with
              | zero =>
                rw [renderValue_zero] at hrA
                cases hrA
              | succ g3 =>
                rw [renderValue_proc_eq "Assign" rfl] at hrA
                have h10 : parse_assign (renderValue g3) "Assign" nAfs s1
                    = .ok (tA, xA2, sAfter) := hrA
                rw [parse_assign] at h10
                split at h10
                · cases h10
                next valV hval =>
                  split at h10
                  · cases h10
                  next vTxt valV2 s2 hrv =>
                    simp only [htargets] at h10
                    split at h10
                    · cases h10
                    next stmts tgts2 s3 hloop =>
                      cases h10
                      have hx2 : containsScope x s2 = true :=
                        containsScope_mono (renderValue_mono g3 _ _ _ _ _ hrv) x hx1
                      obtain ⟨sj, tx, t2, sAfterT, hleJ, hrT, hstmtJ⟩ :=
                        assignLoopR_get (renderValue_mono g3) vTxt tgts s2
                          _ _ _ hloop j _ htj
                      have hxj : containsScope x sj = true :=
                        containsScope_mono hleJ x hx2
                      cases g3 with
                      | zero =>
                        rw [renderValue_zero] at hrT
                        cases hrT
                      | succ g4 =>
                        rw [renderValue_nName] at hrT
                        cases hrT
                        have hplain : (assignStep x vTxt sj).1 = x ++ " = " ++ vTxt := by
                          rw [assignStep, if_pos (by simp [hxj])]
                        rw [hplain] at hstmtJ
                        exact ⟨argsTxt, bodyTexts, stmts, vTxt, rfl, hgetA, hstmtJ⟩
  · intro fuel lfs s x ps argsV out
    intro hargs hps hx h8
    cases fuel with
    | zero =>
      rw [renderValue_zero] at h8
      cases h8
    | succ g =>
      rw [renderValue_proc_eq "Lambda" rfl] at h8
      have h9 : parse_lambda (renderValue g) "Lambda" lfs s = .ok out := h8
      rw [parse_lambda] at h9
      simp only [hargs, hps] at h9
      split at h9
      · cases h9
      next argsTxt argsV2 sA hargsR =>
        split at h9
        · cases h9
        next bodyV hbodyf =>
          split at h9
          · cases h9
          next bodyTxt bodyV2 sB hbodyR =>
            cases h9
            have hxnew : containsScope x (paramsFrame ps :: s) = true := by
              rw [containsScope_cons, paramsFrame_contains hx, Bool.true_or]
            exact ⟨g, argsTxt, argsV2, sA, bodyV, bodyTxt, bodyV2, sB, rfl,
              hargsR, hbodyf, hbodyR, rfl,
              containsScope_mono (renderValue_mono g _ _ _ _ _ hargsR) x hxnew⟩

/-- C3 witness: param_assignment_plain applied to the concrete function
func(b) whose body is the chained assignment a = b = c = 10 (the target
b at index 1 is the parameter), and to a concrete identity lambda. -/
theorem param_assignment_plain_witness :
    (∃ argsTxt bodyTexts stmts rhs,
      ("function func(b) \x7b\nvar a = 10;b = 10;var c = 10\n\x7d" : String) =
        "function " ++ "func" ++ "(" ++ argsTxt ++ ") \x7b\n" ++
          String.intercalate ";\n" bodyTexts ++ "\n\x7d" ∧
      bodyTexts.get? 0 = some (String.intercalate ";" stmts) ∧
      stmts.get? 1 = some ("b" ++ " = " ++ rhs)) ∧
    (∃ g argsTxt argsV2 sA bodyV bodyTxt bodyV2 sB,
      (10 : Nat) = g + 1 ∧
      renderValue g (.vNode "arguments" [("args", .vList [.vNode "arg" [("arg", .vStr "d")]])])
        (paramsFrame ["d"] :: [[]]) = .ok (argsTxt, argsV2, sA) ∧
      List.lookup "body" [("args", .vNode "arguments"
          [("args", .vList [.vNode "arg" [("arg", .vStr "d")]])]),
        ("body", nName "d")] = some bodyV ∧
      renderValue g bodyV sA = .ok (bodyTxt, bodyV2, sB) ∧
      ("((d) => (d))" : String) = "((" ++ argsTxt ++ ") => (" ++ bodyTxt ++ "))" ∧
      containsScope "d" sA = true) :=
  ⟨param_assignment_plain.1 10
    [("name", .vStr "func"),
     ("args", .vNode "arguments" [("args", .vList [.vNode "arg" [("arg", .vStr "b")]])]),
     ("body", .vList [.vNode "Assign"
        [("targets", .vList [nName "a", nName "b", nName "c"]), ("value", .vInt 10)]])]
    [[]] 0 1 "b" "func" ["b"]
    (.vNode "arguments" [("args", .vList [.vNode "arg" [("arg", .vStr "b")]])])
    [.vNode "Assign"
      [("targets", .vList [nName "a", nName "b", nName "c"]), ("value", .vInt 10)]]
    [("targets", .vList [nName "a", nName "b", nName "c"]), ("value", .vInt 10)]
    [nName "a", nName "b", nName "c"]
    ("function func(b) \x7b\nvar a = 10;b = 10;var c = 10\n\x7d",
     .vNode "FunctionDef"
       [("name", .vStr "func"),
        ("args", .vNode "arguments" [("args", .vList [.vNode "arg" [("arg", .vStr "b")]])]),
        ("body", .vList [.vNode "Assign"
           [("targets", .vList [nName "a", nName "b", nName "c"]), ("value", .vInt 10)]])],
     [[]])
    rfl rfl rfl (by decide) rfl rfl rfl rfl rfl,
   param_assignment_plain.2 10
    [("args", .vNode "arguments" [("args", .vList [.vNode "arg" [("arg", .vStr "d")]])]),
     ("body", nName "d")]
    [[]] "d" ["d"]
    (.vNode "arguments" [("args", .vList [.vNode "arg" [("arg", .vStr "d")]])])
    ("((d) => (d))",
     .vNode "Lambda"
       [("args", .vNode "arguments" [("args", .vList [.vNode "arg" [("arg", .vStr "d")]])]),
        ("body", nName "d")],
     [[]])
    rfl rfl (by decide) rfl⟩

/-- C5 witness: expr_parenthesization applied to a concrete binary
operation and a concrete boolean operation. -/
theorem expr_parenthesization_witness :
    (∃ u, ("(a + 2)" : String) = "(" ++ u ++ ")") ∧
    (∃ opTxt parts, ("a&&b" : String) = String.intercalate opTxt parts) :=
  ⟨expr_parenthesization.1 9
     [("left", nName "a"), ("op", .vNode "Add" []), ("right", .vInt 2)] [[]]
     ("(a + 2)",
      .vNode "BinOp" [("left", .vStr "a"), ("op", .vStr "+"), ("right", .vStr "2")],
      [[]]) rfl,
   expr_parenthesization.2.2.2.1 9
     [("op", .vNode "And" []), ("values", .vList [nName "a", nName "b"])] [[]]
     ("a&&b",
      .vNode "BoolOp" [("op", .vNode "And" []), ("values", .vList [nName "a", nName "b"])],
      [[]]) rfl⟩

/-- C6 witness: render_overwrites_fields at the concrete Constant 5. -/
theorem render_overwrites_fields_witness :
    renderValue 2 (.vNode "Constant" [("value", .vInt 5)]) [[]]
      = .ok (toString (5:Int), .vNode "Constant" [("value", .vStr (toString (5:Int)))], [[]]) ∧
    renderValue 2 (.vNode "Constant" [("value", .vStr (toString (5:Int)))]) [[]]
      = .ok ("\"" ++ toString (5:Int) ++ "\"",
             .vNode "Constant" [("value", .vStr ("\"" ++ toString (5:Int) ++ "\""))], [[]]) ∧
    toString (5:Int) ≠ "\"" ++ toString (5:Int) ++ "\"" :=
  render_overwrites_fields 0 5 [[]]
